import Mathlib

/-!
# Shallow embedding of the real-time ML feature pipeline

Source of truth: `src/feature-processor/processor_enhanced.py`.

Modelling conventions:
* Python dicts holding JSON-ish values become association lists over a
  `Val` value type; `dict.get(k, d)` becomes a lookup with default.
* Timestamps: the code stores ISO-8601 strings and parses them with
  `datetime.fromisoformat`; we model a parsed timestamp as an integer
  (epoch seconds).  An event's `ingested_at` is `Option Int` — `none`
  models an absent field, for which the code falls back to `utcnow()`.
* `hashlib.md5` is an external library; the digest is a parameter
  `digest : String → Nat` of the variant-assignment function (the code
  only uses `int(md5(uid).hexdigest(), 16)`, a fixed function of the
  user id).
* Redis is modelled as a typed store with one field per key family
  (`activity:{u}:{w}`, `event_freq:{u}:{t}:24h`, `last_event:{u}`,
  `first_event:{u}`, `drift:*:{f}`); the key families are disjoint by
  prefix.  TTLs are recorded where a claim mentions them.
* The database is modelled by an oracle `dbCount : String → Nat →
  Option Nat` (`none` = query raised) for `_get_activity_count_from_db`,
  and by an explicit list of committed rows for `store_features`.
* Python `float` arithmetic is modelled over `ℚ`; `math.sqrt`
  (`** 0.5`) is a parameter `sqrtFn : ℚ → ℚ` of the drift detector.
-/

/-- An input event: the fields `compute_features` reads.  `ingested_at`
is the parsed timestamp (`none` = field absent, code falls back to
`utcnow()`). -/
structure Event where
  user_id : Option String
  event_type : Option String
  ingested_at : Option Int
  device_type : Option String
deriving DecidableEq, Repr

/-- A JSON-ish value as held in the Python feature dict. -/
inductive Val where
  | int : Int → Val
  | rat : Rat → Val
  | str : String → Val
  | bool : Bool → Val
  | none : Val
  | ev : Event → Val
deriving DecidableEq, Repr

/-- One feature definition from the YAML registry: `{name, version}`
(the other YAML fields are never read by the processor). -/
structure FeatureDef where
  name : Option String
  version : Option String
deriving DecidableEq, Repr

/-- One A/B variant entry `{id, traffic_percentage, features_version}`. -/
structure ABVariant where
  id : Option String
  traffic_percentage : Option Int
  features_version : Option String
deriving DecidableEq, Repr

/-- `ab_testing` section of the config. -/
structure ABConfig where
  enabled : Bool
  variants : List ABVariant
deriving DecidableEq, Repr

/-- The feature registry as loaded by `FeatureRegistry.__init__`:
`feature_version`, the category → definitions map (an ordered list, as
Python dicts iterate in insertion order), the cache TTL table, and the
A/B config. -/
structure Registry where
  version : String
  features : List (String × List FeatureDef)
  feature_ttls : String → Option Nat
  default_ttl_seconds : Nat
  ab : ABConfig

/-- `FeatureRegistry.get_feature_ttl`: the per-feature TTL, else the
configured default. -/
def Registry.get_feature_ttl (r : Registry) (feature_name : String) : Nat :=
  (r.feature_ttls feature_name).getD r.default_ttl_seconds

/-- The cumulative-percentage walk inside `get_user_variant`:
`cumulative += variant.get('traffic_percentage', 50); if
variant_percentage < cumulative: return variant.get('id', 'A')`, and
`return 'A'` when the loop falls through. -/
def variantWalk : List ABVariant → Int → Int → String
  | [], _, _ => "A"
  | v :: rest, bucket, cumulative =>
    let cumulative' := cumulative + v.traffic_percentage.getD 50
    if bucket < cumulative' then v.id.getD "A"
    else variantWalk rest bucket cumulative'

/-- `FeatureRegistry.get_user_variant`: if A/B testing is disabled
return `'A'`; otherwise bucket `md5(user_id) mod 100` through the
cumulative traffic percentages.  `digest` abstracts
`int(hashlib.md5(user_id.encode()).hexdigest(), 16)`. -/
def Registry.get_user_variant (r : Registry) (digest : String → Nat)
    (user_id : String) : String :=
  if !r.ab.enabled then "A"
  else variantWalk r.ab.variants ((digest user_id : Int) % 100) 0

/-- The inner category scan of `should_compute_feature`: the first
definition (category order, then list order) whose `name` equals the
requested feature. -/
def findFeatureDef : List (String × List FeatureDef) → String → Option FeatureDef
  | [], _ => Option.none
  | (_, defs) :: rest, n =>
    match defs.find? (fun f => f.name == some n) with
    | some f => some f
    | Option.none => findFeatureDef rest n

/-- The variant loop of `should_compute_feature`: for each configured
variant whose `id` equals the requested variant, scan the categories;
on a name match return `feature.version == variant.features_version or
features_version == 'v2'`; if no variant matches or the name is nowhere
in the registry, return `True`. -/
def scfWalk (feats : List (String × List FeatureDef)) (feature_name : String) :
    List ABVariant → String → Bool
  | [], _ => true
  | v :: rest, variant =>
    if v.id == some variant then
      match findFeatureDef feats feature_name with
      | some f =>
        let version := v.features_version.getD "v1"
        f.version.getD "v1" == version || version == "v2"
      | Option.none => scfWalk feats feature_name rest variant
    else scfWalk feats feature_name rest variant

/-- `FeatureRegistry.should_compute_feature`. -/
def Registry.should_compute_feature (r : Registry) (feature_name variant : String) : Bool :=
  scfWalk r.features feature_name r.ab.variants variant

/-- Modelled from the spec: `variant(user_id)` per §4.1 — "compute a
stable 128-bit digest of `user_id`, reduce to `bucket = digest mod
100`, walk the variant list accumulating `traffic_percentage`, return
the first id whose cumulative bound strictly exceeds `bucket`.  If A/B
is disabled, always return the first variant id."  The walk and the
config defaults are shared with the source embedding; the disabled
branch returns the first configured variant id, as the spec says. -/
def variantSpec (r : Registry) (digest : String → Nat) (user_id : String) : String :=
  if !r.ab.enabled then
    match r.ab.variants with
    | [] => "A"
    | v :: _ => v.id.getD "A"
  else variantWalk r.ab.variants ((digest user_id : Int) % 100) 0

/-! ## Python dicts as association lists -/

/-- The feature dict: an ordered association list.  All writes in the
processor go through `dset`, which keeps keys unique. -/
abbrev Dict := List (String × Val)

/-- `d[k] = v` on a Python dict: replace in place if the key exists,
else append (insertion order preserved). -/
def dset (d : Dict) (k : String) (v : Val) : Dict :=
  if (List.any d (fun p => p.1 == k)) then
    List.map (fun p => if p.1 == k then (k, v) else p) d
  else d ++ [(k, v)]

/-- `d.get(k)` / `d[k]`: the value under `k`, if present. -/
def dget (d : Dict) (k : String) : Option Val :=
  (List.find? (fun p => p.1 == k) d).map (fun p => p.2)

/-- `features.update(sub)`: fold the sub-dict into the dict. -/
def dmerge (d sub : Dict) : Dict :=
  List.foldl (fun acc p => dset acc p.1 p.2) d sub

/-- The key set of a dict. -/
def dkeys (d : Dict) : List String := List.map Prod.fst d

/-! ## Redis model -/

/-- Welford statistics hash `drift:stats:{f}` / `drift:baseline:{f}`:
`{count, mean, m2, std}`. -/
structure Stats where
  count : Int
  mean : Rat
  m2 : Rat
  std : Rat
deriving DecidableEq, Repr

/-- Per-feature drift state: the `drift:values:{f}` sorted set (score ×
member value), the rolling stats hash and the baseline hash. -/
structure DriftState where
  values : List (Rat × Rat)
  stats : Option Stats
  baseline : Option Stats
deriving DecidableEq, Repr

/-- The empty drift state (no Redis keys yet). -/
def DriftState.empty : DriftState :=
  { values := [], stats := Option.none, baseline := Option.none }

/-- The Redis keyspace, split by key family (families are disjoint by
prefix).  `activity` records `(value, ttl-as-written)` so TTL claims
are statable; `last_event` / `first_event` hold parsed timestamps. -/
structure Cache where
  activity : String → Nat → Option (Int × Nat)
  eventFreq : String → String → Option Int
  lastEvent : String → Option Int
  firstEvent : String → Option Int
  drift : String → DriftState

/-- Point update of the `activity:{u}:{w}` family. -/
def Cache.setActivity (c : Cache) (u : String) (w : Nat) (v : Int) (ttl : Nat) : Cache :=
  { c with activity := fun u' w' =>
      if u' = u ∧ w' = w then some (v, ttl) else c.activity u' w' }

/-- Point update of the `event_freq:{u}:{t}:24h` family. -/
def Cache.setEventFreq (c : Cache) (u t : String) (v : Int) : Cache :=
  { c with eventFreq := fun u' t' =>
      if u' = u ∧ t' = t then some v else c.eventFreq u' t' }

/-- Point update of `last_event:{u}` (TTL 86400, not tracked). -/
def Cache.setLastEvent (c : Cache) (u : String) (v : Int) : Cache :=
  { c with lastEvent := fun u' => if u' = u then some v else c.lastEvent u' }

/-- Point update of `first_event:{u}` (TTL 7 days, not tracked). -/
def Cache.setFirstEvent (c : Cache) (u : String) (v : Int) : Cache :=
  { c with firstEvent := fun u' => if u' = u then some v else c.firstEvent u' }

/-- Point update of the per-feature drift state. -/
def Cache.setDrift (c : Cache) (f : String) (s : DriftState) : Cache :=
  { c with drift := fun f' => if f' = f then s else c.drift f' }

/-! ## Drift detector (`DriftDetector`) -/

/-- Per-feature drift thresholds `{mean_shift?, std_shift?}`. -/
structure Thresh where
  mean_shift : Option Rat
  std_shift : Option Rat
deriving DecidableEq, Repr

/-- Static configuration of the whole processor: the registry, the
drift section, and the two abstracted library functions (`md5` digest,
`** 0.5`), plus the database read oracle (`none` = the query raised). -/
structure Config where
  registry : Registry
  driftEnabled : Bool
  thresholds : String → Option Thresh
  digest : String → Nat
  sqrtFn : Rat → Rat
  dbCount : String → Nat → Option Nat

/-- The Welford update inside `DriftDetector._update_statistics`: read
`{count, mean, m2}` with zero defaults, apply one online step, with
`std = (m2/count) ** 0.5 if count > 1 else 0`. -/
def welfordStep (cfg : Config) (s : Option Stats) (value : Rat) : Stats :=
  let count := (s.map Stats.count).getD 0
  let mean := (s.map Stats.mean).getD 0
  let m2 := (s.map Stats.m2).getD 0
  let count' := count + 1
  let delta := value - mean
  let mean' := mean + delta / (count' : Rat)
  let delta2 := value - mean'
  let m2' := m2 + delta * delta2
  let std' := if count' > 1 then cfg.sqrtFn (m2' / (count' : Rat)) else 0
  { count := count', mean := mean', m2 := m2', std := std' }

/-- `DriftDetector._update_statistics` writes the stepped statistics
back under a 1-hour TTL. -/
def updateStatistics (cfg : Config) (ds : DriftState) (value : Rat) : DriftState :=
  { ds with stats := some (welfordStep cfg ds.stats value) }

/-- `DriftDetector._check_drift`: features without thresholds never
alert; an absent baseline is initialised from the current stats (no
alert); otherwise alert iff `|mean_now − mean_base| > mean_shift or
|std_now − std_base| > std_shift` (defaults 10.0 / 5.0).  Returns the
new state and whether `DRIFT_ALERTS` was incremented. -/
def checkDrift (cfg : Config) (feature_name : String) (ds : DriftState) :
    DriftState × Bool :=
  match cfg.thresholds feature_name with
  | Option.none => (ds, false)
  | some th =>
    match ds.baseline with
    | Option.none =>
      match ds.stats with
      | Option.none => (ds, false)
      | some st => ({ ds with baseline := some st }, false)
    | some base =>
      match ds.stats with
      | Option.none => (ds, false)
      | some cur =>
        let mean_shift := |cur.mean - base.mean|
        let std_shift := |cur.std - base.std|
        if mean_shift > th.mean_shift.getD 10 ∨ std_shift > th.std_shift.getD 5 then
          (ds, true)
        else (ds, false)

/-- `DriftDetector.record_feature_value`: no-op when disabled or the
value is `None`; otherwise append to the values sorted set, trim
entries with score ≤ now − 3600, run the Welford update, then the
drift check.  Returns the updated per-feature state and the alert
flag. -/
def recordFeatureValue (cfg : Config) (feature_name : String) (value : Option Rat)
    (now : Rat) (ds : DriftState) : DriftState × Bool :=
  if !cfg.driftEnabled then (ds, false)
  else
    match value with
    | Option.none => (ds, false)
    | some v =>
      let vals := (ds.values ++ [(now, v)]).filter (fun p => p.1 > now - 3600)
      let ds1 := updateStatistics cfg { ds with values := vals } v
      checkDrift cfg feature_name ds1

/-- Lift `record_feature_value` to the whole cache. -/
def recordInCache (cfg : Config) (c : Cache) (feature_name : String)
    (value : Option Rat) (now : Rat) : Cache × Bool :=
  let (ds, alert) := recordFeatureValue cfg feature_name value now (c.drift feature_name)
  (c.setDrift feature_name ds, alert)

/-! ## Feature computation (`EnhancedFeatureProcessor.compute_*`) -/

/-- Numeric read with default, `features.get(k, dflt)` used where the
code consumes the value as a number.  In the processor these keys only
ever hold integers when present; the catch-all default is unreachable
there. -/
def getIntD (d : Dict) (k : String) (dflt : Int) : Int :=
  match dget d k with
  | some (Val.int n) => n
  | _ => dflt

/-- `features.get(k, False)` consumed as a truth value (the key holds a
bool when present). -/
def getBoolD (d : Dict) (k : String) (dflt : Bool) : Bool :=
  match dget d k with
  | some (Val.bool b) => b
  | _ => dflt

/-- `features.get(k, 0)` consumed as a float (the key holds a float
when present). -/
def getRatD (d : Dict) (k : String) (dflt : Rat) : Rat :=
  match dget d k with
  | some (Val.rat q) => q
  | _ => dflt

/-- `dt.hour` for a UTC epoch-seconds timestamp (Python floor
division/modulo). -/
def tsHour (ts : Int) : Int := (ts.fdiv 3600).emod 24

/-- `dt.weekday()` (Monday = 0) for a UTC epoch-seconds timestamp; day
0 (1970-01-01) was a Thursday (= 3). -/
def tsWeekday (ts : Int) : Int := (ts.fdiv 86400 + 3).emod 7

/-- `compute_temporal_features`: `hour_of_day`, `day_of_week`,
`is_weekend`, each gated by `should_compute_feature`.  (The
parse-failure branch, which omits all three, is unreachable in the
integer-timestamp model.) -/
def compute_temporal_features (cfg : Config) (e : Event) (variant : String)
    (now : Int) : Dict :=
  let timestamp := e.ingested_at.getD now
  let d1 : Dict :=
    if cfg.registry.should_compute_feature "hour_of_day" variant then
      dset [] "hour_of_day" (Val.int (tsHour timestamp)) else []
  let d2 :=
    if cfg.registry.should_compute_feature "day_of_week" variant then
      dset d1 "day_of_week" (Val.int (tsWeekday timestamp)) else d1
  if cfg.registry.should_compute_feature "is_weekend" variant then
    dset d2 "is_weekend" (Val.bool (tsWeekday timestamp ≥ 5)) else d2

/-- The fixed event-type list one-hot encoded by
`compute_categorical_features`. -/
def eventTypeList : List String :=
  ["login", "logout", "purchase", "view", "click", "search"]

/-- The fixed device-type list one-hot encoded by
`compute_categorical_features`. -/
def deviceTypeList : List String := ["mobile", "desktop", "tablet"]

/-- `compute_categorical_features`: one-hot over the fixed event-type
set (gated by `event_type_encoded`) and device-type set (gated by
`device_type_encoded`). -/
def compute_categorical_features (cfg : Config) (e : Event) (variant : String) : Dict :=
  let event_type := e.event_type.getD "unknown"
  let d1 : Dict :=
    if cfg.registry.should_compute_feature "event_type_encoded" variant then
      List.foldl (fun d et =>
        dset d ("event_type_" ++ et) (Val.int (if event_type = et then 1 else 0))) [] eventTypeList
    else []
  let device := e.device_type.getD "unknown"
  if cfg.registry.should_compute_feature "device_type_encoded" variant then
    List.foldl (fun d dt =>
      dset d ("device_type_" ++ dt) (Val.int (if device = dt then 1 else 0))) d1 deviceTypeList
  else d1

/-- `_get_activity_count_from_db`: the count of the user's raw events
with `timestamp > NOW() − hours`, or 0 when the query raises
(`cfg.dbCount _ _ = none`). -/
def get_activity_count_from_db (cfg : Config) (user_id : String) (hours : Nat) : Int :=
  match cfg.dbCount user_id hours with
  | some n => (n : Int)
  | Option.none => 0

/-- The count a window read yields: on a cache hit (`if cached_count:`
— a present key, since stored counters are non-empty strings) the
cached value + 1, on a miss the DB count + 1. -/
def windowValue (cfg : Config) (user_id : String) (wsec : Nat) (c : Cache) : Int :=
  match c.activity user_id wsec with
  | some (cached, _) => cached + 1
  | Option.none => get_activity_count_from_db cfg user_id (wsec / 3600) + 1

/-- The loop body of `compute_windowed_aggregations` for one `(name,
window_seconds)` pair: gate, read `activity:{u}:{w}`, record the
feature, refresh the cache entry with the feature's TTL. -/
def windowStep (cfg : Config) (user_id variant : String)
    (fname : String) (wsec : Nat) : Dict × Cache → Dict × Cache :=
  fun dc =>
    if cfg.registry.should_compute_feature fname variant then
      (dset dc.1 fname (Val.int (windowValue cfg user_id wsec dc.2)),
       dc.2.setActivity user_id wsec (windowValue cfg user_id wsec dc.2)
         (cfg.registry.get_feature_ttl fname))
    else dc

/-- The `event_type_frequency_24h` block of
`compute_windowed_aggregations`: gate, `INCR
event_freq:{u}:{t}:24h`, `EXPIRE 86400`, then read the counter back
(`int(get(...) or 0)`). -/
def eventFreqStep (cfg : Config) (user_id event_type variant : String)
    (dc : Dict × Cache) : Dict × Cache :=
  if cfg.registry.should_compute_feature "event_type_frequency_24h" variant then
    let newv := (dc.2.eventFreq user_id event_type).getD 0 + 1
    let c' := dc.2.setEventFreq user_id event_type newv
    (dset dc.1 "event_type_frequency_24h" (Val.int ((c'.eventFreq user_id event_type).getD 0)), c')
  else dc

/-- `compute_windowed_aggregations`: the four windows in the code's
dict-literal order, then the `event_type_frequency_24h` counter. -/
def compute_windowed_aggregations (cfg : Config) (user_id event_type variant : String)
    (c : Cache) : Dict × Cache :=
  eventFreqStep cfg user_id event_type variant
    (windowStep cfg user_id variant "activity_count_7d" 604800
      (windowStep cfg user_id variant "activity_count_24h" 86400
        (windowStep cfg user_id variant "activity_count_6h" 21600
          (windowStep cfg user_id variant "activity_count_1h" 3600 ([], c)))))

/-- `compute_ratio_features`: `activity_trend = count_1h /
max(count_24h, 1)` from the features dict, and `purchase_rate_24h =
purchases / max(views, 1)` read (not bumped) from the event-frequency
cache; each gated. -/
def compute_ratio_features (cfg : Config) (user_id : String) (features : Dict)
    (variant : String) (c : Cache) : Dict :=
  let d1 : Dict :=
    if cfg.registry.should_compute_feature "activity_trend" variant then
      let count_1h := getIntD features "activity_count_1h" 0
      let count_24h := getIntD features "activity_count_24h" 1
      dset [] "activity_trend" (Val.rat ((count_1h : Rat) / ((max count_24h 1 : Int) : Rat)))
    else []
  if cfg.registry.should_compute_feature "purchase_rate_24h" variant then
    let purchases := (c.eventFreq user_id "purchase").getD 0
    let views := (c.eventFreq user_id "view").getD 0
    dset d1 "purchase_rate_24h" (Val.rat ((purchases : Rat) / ((max views 1 : Int) : Rat)))
  else d1

/-- `compute_engagement_score`: the v2 algorithm when the variant is
`'B'` and `engagement_score_v2` is active, else the v1 algorithm; both
clipped with `min(score, 100)`.  Float literals 0.5/0.2/0.1/0.05 are
the exact rationals. -/
def compute_engagement_score (cfg : Config) (features : Dict) (variant : String) : Int :=
  if variant == "B" && cfg.registry.should_compute_feature "engagement_score_v2" variant then
    let count_1h := getIntD features "activity_count_1h" 0
    let count_24h := getIntD features "activity_count_24h" 0
    let s1 : Int :=
      if count_24h > 20 then 40
      else if count_24h > 10 then 30
      else if count_24h > 5 then 20
      else if count_1h > 0 then 10
      else 0
    let s2 : Int := if getBoolD features "is_active_session" false then 20 else 0
    let trend := getRatD features "activity_trend" 0
    let s3 : Int := if trend > (1 : Rat) / 2 then 20 else if trend > (1 : Rat) / 5 then 10 else 0
    let purchase_rate := getRatD features "purchase_rate_24h" 0
    let s4 : Int :=
      if purchase_rate > (1 : Rat) / 10 then 20
      else if purchase_rate > (1 : Rat) / 20 then 10
      else 0
    min (s1 + s2 + s3 + s4) 100
  else
    let count_1h := getIntD features "activity_count_1h" 0
    let s1 : Int := if count_1h > 5 then 30 else if count_1h > 2 then 15 else 0
    let s2 : Int := if getBoolD features "is_active_session" false then 20 else 0
    let event_freq := getIntD features "event_type_frequency_24h" 0
    let s3 : Int := if event_freq > 10 then 50 else 0
    min (s1 + s2 + s3) 100

/-- Numeric view of a stored feature value, for
`drift_detector.record_feature_value(features[k])` (the recorded keys
hold numbers when present). -/
def valAsRat : Val → Option Rat
  | Val.int n => some (n : Rat)
  | Val.rat q => some q
  | _ => Option.none

/-- The always-present identity keys of a feature record (the skip
list of `store_features`). -/
def identityFields : List String :=
  ["user_id", "event_type", "timestamp", "computed_at",
   "feature_version", "ab_variant", "raw_event"]

/-- The session-indicator expression
`features.get('seconds_since_last_event', 1800) < 1800`.  The key is
always present at this point; when it holds `None`, Python raises
`TypeError` (`'<' not supported between instances of 'NoneType' and
'int'`), aborting `compute_features` for the event. -/
def sessionIndicator (features : Dict) : Except String Bool :=
  match dget features "seconds_since_last_event" with
  | some (Val.int d) => Except.ok (decide (d < 1800))
  | some Val.none => Except.error "TypeError"
  | Option.none => Except.ok (decide ((1800 : Int) < 1800))
  | some _ => Except.error "TypeError"

/-- The `is_new_user` block: on a missing `first_event:{u}` key, write
it (7-day TTL) and emit `True`; else emit
`(timestamp − first) / 3600 < 24`. -/
def newUserStep (features : Dict) (c : Cache) (user_id : String) (timestamp : Int) :
    Dict × Cache :=
  match c.firstEvent user_id with
  | Option.none =>
    (dset features "is_new_user" (Val.bool true), c.setFirstEvent user_id timestamp)
  | some first_time =>
    let hours_since_first : Rat := ((timestamp - first_time : Int) : Rat) / 3600
    (dset features "is_new_user" (Val.bool (hours_since_first < 24)), c)

/-- The identity seed of the feature dict (lines 456-463 of the
processor): `user_id`, `event_type`, `timestamp`, `computed_at`,
`feature_version`, `ab_variant`. -/
def seedDict (cfg : Config) (e : Event) (now : Int) (variant : String) : Dict :=
  [("user_id", Val.str (e.user_id.getD "unknown")),
   ("event_type", Val.str (e.event_type.getD "unknown")),
   ("timestamp", Val.int (e.ingested_at.getD now)),
   ("computed_at", Val.int now),
   ("feature_version", Val.str cfg.registry.version),
   ("ab_variant", Val.str variant)]

/-- The seconds-since-last-event block: read `last_event:{u}`, emit
the signed delta (or `None` when the key is absent), then `SETEX
last_event:{u} 86400 timestamp`. -/
def lastEventStep (d : Dict) (c : Cache) (user_id : String) (timestamp : Int) :
    Dict × Cache :=
  let d' := match c.lastEvent user_id with
    | some last_time => dset d "seconds_since_last_event" (Val.int (timestamp - last_time))
    | Option.none => dset d "seconds_since_last_event" Val.none
  (d', c.setLastEvent user_id timestamp)

/-- The session-indicator block: when gated in, evaluate
`features.get('seconds_since_last_event', 1800) < 1800` (which raises
on a `None` delta) and record `is_active_session`. -/
def sessionStep (cfg : Config) (variant : String) (d : Dict) : Except String Dict :=
  if cfg.registry.should_compute_feature "is_active_session" variant then
    match sessionIndicator d with
    | Except.ok b => Except.ok (dset d "is_active_session" (Val.bool b))
    | Except.error msg => Except.error msg
  else Except.ok d

/-- The new-user stage of `compute_features` (gated). -/
def psNu (cfg : Config) (user_id variant : String) (timestamp : Int)
    (d5 : Dict) (c1 : Cache) : Dict × Cache :=
  if cfg.registry.should_compute_feature "is_new_user" variant then
    newUserStep d5 c1 user_id timestamp
  else (d5, c1)

/-- The dict after merging the ratio features. -/
def psD6 (cfg : Config) (user_id variant : String) (timestamp : Int)
    (d5 : Dict) (c1 : Cache) : Dict :=
  dmerge (psNu cfg user_id variant timestamp d5 c1).1
    (compute_ratio_features cfg user_id (psNu cfg user_id variant timestamp d5 c1).1
      variant (psNu cfg user_id variant timestamp d5 c1).2)

/-- The tail of `compute_features` after the session indicator:
new-user flag, ratio features, engagement score (emitted as
`engagement_score_v2` for variant `'B'`, else `engagement_score`),
drift recording, and the verbatim `raw_event`. -/
def postSession (cfg : Config) (e : Event) (now : Int) (user_id variant : String)
    (timestamp : Int) (d5 : Dict) (c1 : Cache) : Dict × Cache :=
  let nu := psNu cfg user_id variant timestamp d5 c1
  let d6 := psD6 cfg user_id variant timestamp d5 c1
  let engagement_score := compute_engagement_score cfg d6 variant
  let d7 :=
    if variant == "B" then dset d6 "engagement_score_v2" (Val.int engagement_score)
    else dset d6 "engagement_score" (Val.int engagement_score)
  let r1 := recordInCache cfg nu.2 "engagement_score" (some (engagement_score : Rat)) (now : Rat)
  let r2 :=
    match dget d7 "activity_count_1h" with
    | some v => recordInCache cfg r1.1 "activity_count_1h" (valAsRat v) (now : Rat)
    | Option.none => r1
  (dset d7 "raw_event" (Val.ev e), r2.1)

/-- `user_id = event.get('user_id', 'unknown')`. -/
def cfUser (e : Event) : String := e.user_id.getD "unknown"

/-- The A/B variant `compute_features` assigns the event's user. -/
def cfVariant (cfg : Config) (e : Event) : String :=
  cfg.registry.get_user_variant cfg.digest (cfUser e)

/-- The windowed-aggregation stage of `compute_features`. -/
def cfWc (cfg : Config) (e : Event) (c0 : Cache) : Dict × Cache :=
  compute_windowed_aggregations cfg (cfUser e) (e.event_type.getD "unknown")
    (cfVariant cfg e) c0

/-- The dict after the identity seed, temporal, categorical, and
windowed stages. -/
def cfD3 (cfg : Config) (e : Event) (now : Int) (c0 : Cache) : Dict :=
  dmerge (dmerge (dmerge (seedDict cfg e now (cfVariant cfg e))
      (compute_temporal_features cfg e (cfVariant cfg e) now))
    (compute_categorical_features cfg e (cfVariant cfg e)))
    (cfWc cfg e c0).1

/-- Dict and cache after the seconds-since-last-event block. -/
def cfLc (cfg : Config) (e : Event) (now : Int) (c0 : Cache) : Dict × Cache :=
  lastEventStep (cfD3 cfg e now c0) (cfWc cfg e c0).2 (cfUser e) (e.ingested_at.getD now)

/-- `EnhancedFeatureProcessor.compute_features`.  On success: the
feature record and the mutated cache.  On the one raising statement
(the session indicator over a `None` delta) the error carries the
cache as already mutated before the raise (Redis writes are not rolled
back). -/
def compute_features (cfg : Config) (e : Event) (now : Int) (c0 : Cache) :
    Except (String × Cache) (Dict × Cache) :=
  match sessionStep cfg (cfVariant cfg e) (cfLc cfg e now c0).1 with
  | Except.error msg => Except.error (msg, (cfLc cfg e now c0).2)
  | Except.ok d5 =>
    Except.ok (postSession cfg e now (cfUser e) (cfVariant cfg e)
      (e.ingested_at.getD now) d5 (cfLc cfg e now c0).2)

/-! ## Storage and the pipeline runner -/

/-- One row of the `features` table as built by `store_features`:
`(user_id, feature_name, feature_value, computed_at, feature_version,
ab_variant)`. -/
structure Row where
  user_id : Val
  feature_name : String
  feature_value : Val
  computed_at : Val
  feature_version : Val
  ab_variant : Val
deriving DecidableEq, Repr

/-- The `feature_inserts` list built by `store_features`: one row per
dict entry, skipping the identity keys and `None` values.
`features['user_id']` / `features['computed_at']` are hard lookups in
the code (always present on processor output); `feature_version` /
`ab_variant` use `.get` defaults `'v1'` / `'A'`. -/
def store_rows (features : Dict) : List Row :=
  features.filterMap fun p =>
    if p.1 ∈ identityFields then Option.none
    else if p.2 = Val.none then Option.none
    else some
      { user_id := (dget features "user_id").getD Val.none
        feature_name := p.1
        feature_value := p.2
        computed_at := (dget features "computed_at").getD Val.none
        feature_version := (dget features "feature_version").getD (Val.str "v1")
        ab_variant := (dget features "ab_variant").getD (Val.str "A") }

/-- The feature store: the committed `features` rows (upsert keying is
external to the claims below; rows are recorded in commit order). -/
structure Db where
  committed : List Row
deriving DecidableEq, Repr

/-- `store_features`: one `execute_values` bulk insert of the record's
rows followed by `commit`; any exception (`fail = true`) triggers
`rollback` — the store is unchanged — and re-raises. -/
def store_features (fail : Bool) (features : Dict) (db : Db) : Except String Db :=
  if fail then Except.error "store failure"
  else Except.ok { committed := db.committed ++ store_rows features }

/-- A `dead-letter-queue` record `{original_event, error, timestamp}`. -/
structure DlqMsg where
  original_event : Event
  error : String
  timestamp : Int
deriving DecidableEq, Repr

/-- Observable pipeline state: cache, feature store, the
`feature-events` topic, the `dead-letter-queue` topic, and the
processed/failed counters. -/
structure SysState where
  cache : Cache
  db : Db
  published : List Dict
  dlq : List DlqMsg
  processed : Nat
  failed : Nat

/-- `process_batch` phase 1: `compute_features` per event; failures
increment `events_failed_total` and the event is dropped from
`feature_batch` (the cache keeps the mutations made before the
raise). -/
def computePhase (cfg : Config) (events : List Event) (now : Int) (st : SysState) :
    List Dict × SysState :=
  match events with
  | [] => ([], st)
  | ev :: rest =>
    match compute_features cfg ev now st.cache with
    | Except.ok dc =>
      let r := computePhase cfg rest now { st with cache := dc.2 }
      (dc.1 :: r.1, r.2)
    | Except.error ec =>
      computePhase cfg rest now { st with cache := ec.2, failed := st.failed + 1 }

/-- `process_batch` phase 2: for each computed record, `store_features`
then publish to `feature-events`; a failure increments
`events_failed_total` and moves on.  `storeFail i` tells whether the
`i`-th store call of the phase raises; `i` counts from the phase
start. -/
def storePhase (storeFail : Nat → Bool) (records : List Dict) (i : Nat) (st : SysState) :
    SysState :=
  match records with
  | [] => st
  | d :: rest =>
    match store_features (storeFail i) d st.db with
    | Except.ok db' =>
      storePhase storeFail rest (i + 1)
        { st with db := db', published := st.published ++ [d], processed := st.processed + 1 }
    | Except.error _ =>
      storePhase storeFail rest (i + 1) { st with failed := st.failed + 1 }

/-- `EnhancedFeatureProcessor.process_batch`: compute phase then
store/publish phase.  No statement of this function writes to the
dead-letter topic. -/
def process_batch (cfg : Config) (storeFail : Nat → Bool) (events : List Event)
    (now : Int) (st : SysState) : SysState :=
  let cp := computePhase cfg events now st
  storePhase storeFail cp.1 0 cp.2

/-- `EnhancedFeatureProcessor.process_event` (single-event path):
compute → store → publish; on any exception increment
`events_failed_total` and send `{original_event, error, timestamp}` to
the dead-letter topic (dropped when that send itself fails,
`dlqFail`). -/
def process_event (cfg : Config) (storeFail dlqFail : Bool) (e : Event) (now : Int)
    (st : SysState) : SysState :=
  match compute_features cfg e now st.cache with
  | Except.ok dc =>
    match store_features storeFail dc.1 st.db with
    | Except.ok db' =>
      { st with cache := dc.2, db := db',
                published := st.published ++ [dc.1], processed := st.processed + 1 }
    | Except.error msg =>
      let st' := { st with cache := dc.2, failed := st.failed + 1 }
      if dlqFail then st'
      else { st' with dlq := st'.dlq ++ [{ original_event := e, error := msg, timestamp := now }] }
  | Except.error ec =>
    let st' := { st with cache := ec.2, failed := st.failed + 1 }
    if dlqFail then st'
    else { st' with dlq := st'.dlq ++ [{ original_event := e, error := ec.1, timestamp := now }] }

/-! ## Concrete fixtures for witnesses and counterexamples -/

/-- The record component of a `compute_features` outcome. -/
def computeRec : Except (String × Cache) (Dict × Cache) → Option Dict
  | Except.ok dc => some dc.1
  | Except.error _ => Option.none

/-- The error message of a `compute_features` outcome. -/
def computeErr : Except (String × Cache) (Dict × Cache) → Option String
  | Except.error ec => some ec.1
  | Except.ok _ => Option.none

/-- An empty Redis. -/
def emptyCache : Cache :=
  { activity := fun _ _ => Option.none
    eventFreq := fun _ _ => Option.none
    lastEvent := fun _ => Option.none
    firstEvent := fun _ => Option.none
    drift := fun _ => DriftState.empty }

/-- A registry with no declared features and A/B testing disabled (so
every gate is open and the variant is `'A'`). -/
def defaultRegistry : Registry :=
  { version := "v1", features := [], feature_ttls := fun _ => Option.none,
    default_ttl_seconds := 300, ab := { enabled := false, variants := [] } }

/-- Baseline configuration: default registry, drift disabled, zero
digest and sqrt, database returning count 0. -/
def baseConfig : Config :=
  { registry := defaultRegistry, driftEnabled := false, thresholds := fun _ => Option.none,
    digest := fun _ => 0, sqrtFn := fun _ => 0, dbCount := fun _ _ => some 0 }

/-- A `view` event for user `"u"` at timestamp 1000. -/
def evU : Event :=
  { user_id := some "u", event_type := some "view", ingested_at := some 1000,
    device_type := Option.none }

/-- A `view` event for user `"w"` at timestamp 1000. -/
def evW : Event :=
  { user_id := some "w", event_type := some "view", ingested_at := some 1000,
    device_type := Option.none }

/-- Cache with `last_event:u = 1500` (later than `evU`'s timestamp,
i.e. an out-of-order delivery). -/
def cacheLate : Cache := emptyCache.setLastEvent "u" 1500

/-- Cache with `last_event:u = 900`. -/
def cacheU : Cache := emptyCache.setLastEvent "u" 900

/-- Cache with last events for users `"u"` and `"w"`. -/
def cacheUW : Cache := (emptyCache.setLastEvent "u" 900).setLastEvent "w" 900

/-- Cache with `last_event:u = 900` plus cached windowed counters
`activity:u:3600 = 5` and `activity:u:86400 = 0`. -/
def cacheSkew : Cache :=
  ((emptyCache.setLastEvent "u" 900).setActivity "u" 3600 5 300).setActivity "u" 86400 0 300

/-- An initial pipeline state over a given cache. -/
def initState (c : Cache) : SysState :=
  { cache := c, db := { committed := [] }, published := [], dlq := [],
    processed := 0, failed := 0 }

/-! ## Dictionary lemmas -/

theorem findKey_map_replace_ne (d : Dict) (k k' : String) (v : Val) (h : k ≠ k') :
    List.find? (fun p => p.1 == k)
        (List.map (fun p => if p.1 == k' then (k', v) else p) d)
      = List.find? (fun p => p.1 == k) d := by
  induction d with
  | nil => rfl
  | cons p rest ih =>
    by_cases hp : p.1 = k'
    · have hfp : (if p.1 == k' then (k', v) else p) = (k', v) := by simp [hp]
      rw [List.map_cons, hfp,
          List.find?_cons_of_neg _ (by simp [Ne.symm h]),
          List.find?_cons_of_neg _ (by simp [hp, Ne.symm h]), ih]
    · have hfp : (if p.1 == k' then (k', v) else p) = p := by simp [hp]
      by_cases hpk : p.1 = k
      · rw [List.map_cons, hfp,
            List.find?_cons_of_pos _ (by simp [hpk]),
            List.find?_cons_of_pos _ (by simp [hpk])]
      · rw [List.map_cons, hfp,
            List.find?_cons_of_neg _ (by simp [hpk]),
            List.find?_cons_of_neg _ (by simp [hpk]), ih]

theorem findKey_map_replace_self (d : Dict) (k : String) (v : Val)
    (h : List.any d (fun p => p.1 == k) = true) :
    List.find? (fun p => p.1 == k)
        (List.map (fun p => if p.1 == k then (k, v) else p) d)
      = some (k, v) := by
  induction d with
  | nil => simp at h
  | cons p rest ih =>
    by_cases hp : p.1 = k
    · have hfp : (if p.1 == k then (k, v) else p) = (k, v) := by simp [hp]
      rw [List.map_cons, hfp, List.find?_cons_of_pos _ (by simp)]
    · have hfp : (if p.1 == k then (k, v) else p) = p := by simp [hp]
      simp only [List.any_cons, Bool.or_eq_true, beq_iff_eq] at h
      rcases h with h1 | h1
      · exact absurd h1 hp
      · rw [List.map_cons, hfp, List.find?_cons_of_neg _ (by simp [hp]), ih h1]

theorem findKey_none_of_not_any (d : Dict) (k : String)
    (h : List.any d (fun p => p.1 == k) = false) :
    List.find? (fun p => p.1 == k) d = Option.none := by
  induction d with
  | nil => rfl
  | cons p rest ih =>
    simp only [List.any_cons, Bool.or_eq_false_iff] at h
    rw [List.find?_cons_of_neg _ (by simp [h.1]), ih h.2]

theorem dget_dset_self (d : Dict) (k : String) (v : Val) :
    dget (dset d k v) k = some v := by
  unfold dget dset
  split
  case isTrue h => rw [findKey_map_replace_self d k v h]; rfl
  case isFalse h =>
    rw [Bool.not_eq_true] at h
    rw [List.find?_append, findKey_none_of_not_any d k h]
    simp [List.find?]

theorem dget_dset_ne (d : Dict) (k k' : String) (v : Val) (h : k ≠ k') :
    dget (dset d k' v) k = dget d k := by
  unfold dget dset
  split
  · rw [findKey_map_replace_ne d k k' v h]
  · rw [List.find?_append]
    have hkk : (k' == k) = false := by simp [Ne.symm h]
    have : List.find? (fun p => p.1 == k) [(k', v)] = Option.none := by
      simp [List.find?, hkk]
    rw [this]
    cases List.find? (fun p => p.1 == k) d <;> rfl

theorem dget_dmerge_notin (d sub : Dict) (k : String)
    (h : ∀ p ∈ sub, p.1 ≠ k) : dget (dmerge d sub) k = dget d k := by
  induction sub generalizing d with
  | nil => rfl
  | cons p rest ih =>
    have hp : p.1 ≠ k := h p (List.mem_cons_self p rest)
    have hrest : ∀ q ∈ rest, q.1 ≠ k := fun q hq => h q (List.mem_cons_of_mem p hq)
    show dget (dmerge (dset d p.1 p.2) rest) k = dget d k
    rw [ih (dset d p.1 p.2) hrest, dget_dset_ne d k p.1 p.2 (fun hk => hp hk.symm)]

theorem mem_dkeys_dset (d : Dict) (k k' : String) (v : Val)
    (h : k ∈ dkeys (dset d k' v)) : k ∈ dkeys d ∨ k = k' := by
  unfold dset at h
  split at h
  · unfold dkeys at h
    rw [List.map_map, List.mem_map] at h
    obtain ⟨p, hp, hpk⟩ := h
    by_cases hpp : p.1 = k'
    · right
      have hc : (Prod.fst ∘ fun p => if p.1 == k' then (k', v) else p) p = k' := by
        simp [hpp]
      exact (hc.symm.trans hpk).symm
    · left
      have hc : (Prod.fst ∘ fun p => if p.1 == k' then (k', v) else p) p = p.1 := by
        simp [hpp]
      rw [hc] at hpk
      unfold dkeys; rw [List.mem_map]; exact ⟨p, hp, hpk⟩
  · unfold dkeys at h ⊢
    rw [List.map_append, List.mem_append] at h
    rcases h with h | h
    · exact Or.inl h
    · right; simpa using h

theorem mem_dkeys_dmerge (d sub : Dict) (k : String)
    (h : k ∈ dkeys (dmerge d sub)) : k ∈ dkeys d ∨ k ∈ dkeys sub := by
  induction sub generalizing d with
  | nil => exact Or.inl h
  | cons p rest ih =>
    have h' : k ∈ dkeys (dmerge (dset d p.1 p.2) rest) := h
    rcases ih (dset d p.1 p.2) h' with h1 | h1
    · rcases mem_dkeys_dset d k p.1 p.2 h1 with h2 | h2
      · exact Or.inl h2
      · right; unfold dkeys; rw [h2]; exact List.mem_cons_self _ _
    · right
      unfold dkeys at h1 ⊢
      exact List.mem_cons_of_mem _ h1

theorem mem_dkeys_of_dget (d : Dict) (k : String) (v : Val)
    (h : dget d k = some v) : k ∈ dkeys d := by
  unfold dget at h
  cases hf : List.find? (fun p => p.1 == k) d with
  | none => rw [hf] at h; simp at h
  | some p =>
    have hp := List.find?_some hf
    have hmem := List.mem_of_find?_eq_some hf
    simp only [beq_iff_eq] at hp
    unfold dkeys
    rw [← hp]
    exact List.mem_map_of_mem Prod.fst hmem

/-! ## Claim C7: variant assignment -/

/-- An A/B configuration that is disabled but whose first variant id is
`"X"`. -/
def abX : ABConfig :=
  { enabled := false,
    variants := [{ id := some "X", traffic_percentage := some 100,
                   features_version := some "v1" }] }

/-- A registry with A/B disabled and first configured variant `"X"`. -/
def regX : Registry :=
  { version := "v1", features := [], feature_ttls := fun _ => Option.none,
    default_ttl_seconds := 300, ab := abX }

/-- C7 counterexample: with A/B testing disabled and the configured
variant list starting with id `"X"`, `get_user_variant` returns the
literal `'A'`, not the first variant id in the configured list as the
claim (following the spec) states. -/
theorem C7_counterexample :
    regX.get_user_variant (fun _ => 0) "user_0" = "A" ∧
    variantSpec regX (fun _ => 0) "user_0" = "X" ∧ ("A" : String) ≠ "X" := by
  refine ⟨rfl, rfl, by decide⟩

/-- C7 (amended): `variant(user_id)` is a pure function of the user id
and the variant table.  When A/B testing is enabled it equals the spec
algorithm — digest reduced mod 100, then the first variant id in list
order whose cumulative `traffic_percentage` strictly exceeds the
bucket.  When A/B testing is disabled it returns the literal `'A'`
(not the first variant id in the configured list). -/
theorem C7_theorem (r : Registry) (digest : String → Nat) (user_id : String) :
    (r.ab.enabled = true →
      r.get_user_variant digest user_id = variantSpec r digest user_id) ∧
    (r.ab.enabled = false → r.get_user_variant digest user_id = "A") := by
  constructor
  · intro h
    unfold Registry.get_user_variant variantSpec
    rw [h]
    rfl
  · intro h
    unfold Registry.get_user_variant
    rw [h]
    rfl

/-- C7 witness: the amended theorem applied at an enabled 50/50
configuration and at the disabled `regX`. -/
theorem C7_witness :
    (({ regX with ab := { enabled := true, variants := abX.variants } } :
        Registry).get_user_variant (fun _ => 42) "user_0"
      = variantSpec { regX with ab := { enabled := true, variants := abX.variants } }
          (fun _ => 42) "user_0") ∧
    regX.get_user_variant (fun _ => 42) "user_0" = "A" :=
  ⟨(C7_theorem { regX with ab := { enabled := true, variants := abX.variants } }
      (fun _ => 42) "user_0").1 rfl,
   (C7_theorem regX (fun _ => 42) "user_0").2 rfl⟩

/-! ## Claim C10: store_features row filtering -/

/-- C10: every row `store_features` builds has a feature name outside
the identity set `{user_id, event_type, timestamp, computed_at,
feature_version, ab_variant, raw_event}` — in particular `raw_event`
is never persisted — and a value that is not `None`; a record whose
`seconds_since_last_event` is `None` therefore persists no row for
that feature. -/
theorem C10_theorem (f : Dict) (r : Row) (hr : r ∈ store_rows f) :
    r.feature_name ∉ identityFields ∧ r.feature_name ≠ "raw_event" ∧
    r.feature_value ≠ Val.none := by
  unfold store_rows at hr
  rw [List.mem_filterMap] at hr
  obtain ⟨p, _, hp⟩ := hr
  by_cases h1 : p.1 ∈ identityFields
  · simp [h1] at hp
  · by_cases h2 : p.2 = Val.none
    · simp [h1, h2] at hp
    · simp only [h1, h2, if_neg, if_false, Option.some_inj] at hp
      subst hp
      refine ⟨h1, ?_, h2⟩
      intro hre
      have hre' : p.1 = "raw_event" := hre
      exact h1 (by rw [hre']; decide)

/-- A feature record fragment whose `seconds_since_last_event` is
`None` and which carries one real feature and a `raw_event` payload. -/
def recNone : Dict :=
  [("user_id", Val.str "u"), ("computed_at", Val.int 5),
   ("feature_version", Val.str "v1"), ("ab_variant", Val.str "A"),
   ("seconds_since_last_event", Val.none), ("hour_of_day", Val.int 3),
   ("raw_event", Val.ev { user_id := some "u", event_type := Option.none,
                          ingested_at := Option.none, device_type := Option.none })]

/-- The single row `store_features` persists for `recNone`. -/
def rowHOD : Row :=
  { user_id := Val.str "u", feature_name := "hour_of_day",
    feature_value := Val.int 3, computed_at := Val.int 5,
    feature_version := Val.str "v1", ab_variant := Val.str "A" }

/-- C10 witness: on `recNone` the only persisted row is `hour_of_day`
(no row for the `None`-valued `seconds_since_last_event`, none for
`raw_event`), and the theorem applies to it. -/
theorem C10_witness :
    (store_rows recNone).map Row.feature_name = ["hour_of_day"] ∧
    (rowHOD.feature_name ∉ identityFields ∧ rowHOD.feature_name ≠ "raw_event" ∧
      rowHOD.feature_value ≠ Val.none) :=
  ⟨by decide, C10_theorem recNone rowHOD (by decide)⟩

/-! ## Claim C9: drift alerting -/

/-- C9: with the detector enabled and a numeric value, an alert fires
iff the feature has configured thresholds, a baseline hash exists, and
the just-updated statistics deviate from the baseline by more than
`mean_shift` (default 10.0) or `std_shift` (default 5.0); a feature
without thresholds still has its Welford statistics updated but never
alerts. -/
theorem C9_theorem (cfg : Config) (f : String) (v now : Rat) (ds : DriftState)
    (hen : cfg.driftEnabled = true) :
    ((recordFeatureValue cfg f (some v) now ds).2 = true ↔
      ∃ th base, cfg.thresholds f = some th ∧ ds.baseline = some base ∧
        (|(welfordStep cfg ds.stats v).mean - base.mean| > th.mean_shift.getD 10 ∨
         |(welfordStep cfg ds.stats v).std - base.std| > th.std_shift.getD 5)) ∧
    (cfg.thresholds f = Option.none →
      (recordFeatureValue cfg f (some v) now ds).2 = false ∧
      (recordFeatureValue cfg f (some v) now ds).1.stats
        = some (welfordStep cfg ds.stats v)) := by
  unfold recordFeatureValue
  rw [hen]
  simp only [Bool.not_true, Bool.false_eq_true, if_false]
  unfold checkDrift updateStatistics
  constructor
  · cases hth : cfg.thresholds f with
    | none => simp
    | some th =>
      cases hb : ds.baseline with
      | none =>
        simp only []
        constructor
        · intro h; exact absurd h (by simp)
        · rintro ⟨th', base, hth', hbase, _⟩
          exact absurd hbase (by simp)
      | some base =>
        simp only []
        constructor
        · intro h
          split at h
          · exact ⟨th, base, rfl, rfl, by assumption⟩
          · exact absurd h (by simp)
        · rintro ⟨th', base', hth', hbase', hcond⟩
          cases hth'
          cases hbase'
          split
          · rfl
          · exact absurd hcond (by assumption)
  · intro hth
    rw [hth]
    exact ⟨rfl, rfl⟩

/-- Per-feature drift thresholds used in the C9 witness. -/
def thEng : Thresh := { mean_shift := some 10, std_shift := some 5 }

/-- Threshold table: only `engagement_score` has thresholds. -/
def thFn : String → Option Thresh :=
  fun f => if f == "engagement_score" then some thEng else Option.none

/-- Configuration with drift detection enabled and `thFn` thresholds. -/
def cfgDrift : Config :=
  { registry := defaultRegistry, driftEnabled := true, thresholds := thFn,
    digest := fun _ => 0, sqrtFn := fun _ => 0, dbCount := fun _ _ => some 0 }

/-- Drift state after one recorded sample of 30: stats and baseline
both `{count 1, mean 30, m2 0, std 0}`. -/
def dsBase : DriftState :=
  (recordFeatureValue cfgDrift "engagement_score" (some 30) 0 DriftState.empty).1

/-- C9 witness: the theorem applied at `cfgDrift`, feature
`engagement_score`, value 90 over `dsBase` — the mean moves from 30 to
60, exceeding the threshold 10, so the iff yields an alert; and at the
threshold-less feature `other`, no alert but updated statistics. -/
theorem C9_witness :
    (recordFeatureValue cfgDrift "engagement_score" (some 90) 10 dsBase).2 = true ∧
    (recordFeatureValue cfgDrift "other" (some 90) 10 dsBase).2 = false := by
  constructor
  · exact (C9_theorem cfgDrift "engagement_score" 90 10 dsBase rfl).1.mpr
      ⟨thEng, { count := 1, mean := 30, m2 := 0, std := 0 }, rfl,
        by simp [dsBase, recordFeatureValue, updateStatistics, checkDrift, cfgDrift,
                 thFn, thEng, DriftState.empty, welfordStep],
        Or.inl (by norm_num [welfordStep, dsBase, recordFeatureValue, updateStatistics,
                             checkDrift, cfgDrift, thFn, thEng, DriftState.empty])⟩
  · exact ((C9_theorem cfgDrift "other" 90 10 dsBase rfl).2 rfl).1

/-! ## Claim C8: windowed counters -/

theorem setActivity_self (c : Cache) (u : String) (w : Nat) (v : Int) (t : Nat) :
    (c.setActivity u w v t).activity u w = some (v, t) := by
  unfold Cache.setActivity
  simp

theorem setActivity_ne_w (c : Cache) (u : String) (w : Nat) (v : Int) (t : Nat)
    (u' : String) (w' : Nat) (h : w' ≠ w) :
    (c.setActivity u w v t).activity u' w' = c.activity u' w' := by
  unfold Cache.setActivity
  simp only []
  rw [if_neg]
  intro hc
  exact h hc.2

theorem windowStep_dget_ne (cfg : Config) (u variant fname : String) (wsec : Nat)
    (dc : Dict × Cache) (k : String) (h : k ≠ fname) :
    dget (windowStep cfg u variant fname wsec dc).1 k = dget dc.1 k := by
  unfold windowStep
  split
  · exact dget_dset_ne dc.1 k fname _ h
  · rfl

theorem windowStep_activity_ne (cfg : Config) (u variant fname : String) (wsec : Nat)
    (dc : Dict × Cache) (u' : String) (w' : Nat) (h : w' ≠ wsec) :
    (windowStep cfg u variant fname wsec dc).2.activity u' w' = dc.2.activity u' w' := by
  unfold windowStep
  split
  · exact setActivity_ne_w dc.2 u wsec _ _ u' w' h
  · rfl

theorem windowStep_gated (cfg : Config) (u variant fname : String) (wsec : Nat)
    (dc : Dict × Cache)
    (hg : cfg.registry.should_compute_feature fname variant = true) :
    windowStep cfg u variant fname wsec dc
      = (dset dc.1 fname (Val.int (windowValue cfg u wsec dc.2)),
         dc.2.setActivity u wsec (windowValue cfg u wsec dc.2)
           (cfg.registry.get_feature_ttl fname)) := by
  unfold windowStep
  rw [hg]
  simp

theorem eventFreqStep_dget_ne (cfg : Config) (u et variant : String)
    (dc : Dict × Cache) (k : String) (h : k ≠ "event_type_frequency_24h") :
    dget (eventFreqStep cfg u et variant dc).1 k = dget dc.1 k := by
  unfold eventFreqStep
  split
  · exact dget_dset_ne dc.1 k _ _ h
  · rfl

theorem eventFreqStep_activity (cfg : Config) (u et variant : String)
    (dc : Dict × Cache) :
    (eventFreqStep cfg u et variant dc).2.activity = dc.2.activity := by
  unfold eventFreqStep
  split <;> rfl

theorem windowValue_congr (cfg : Config) (u : String) (wsec : Nat) (c c' : Cache)
    (h : c.activity u wsec = c'.activity u wsec) :
    windowValue cfg u wsec c = windowValue cfg u wsec c' := by
  unfold windowValue
  rw [h]

/-- What C8 states for one `(feature, window)` pair over an initial
cache `c`: on a hit the emitted count is cached + 1 and the entry is
refreshed under the feature's TTL; on a miss it is the DB count + 1,
written under the TTL; on a DB failure the historical count is 0 so
the emitted count is 1. -/
def windowClaim (cfg : Config) (u : String) (c : Cache) (wa : Dict × Cache)
    (f : String) (w : Nat) : Prop :=
  (∀ x t, c.activity u w = some (x, t) →
    dget wa.1 f = some (Val.int (x + 1)) ∧
    wa.2.activity u w = some (x + 1, cfg.registry.get_feature_ttl f)) ∧
  (∀ n, c.activity u w = Option.none → cfg.dbCount u (w / 3600) = some n →
    dget wa.1 f = some (Val.int ((n : Int) + 1)) ∧
    wa.2.activity u w = some ((n : Int) + 1, cfg.registry.get_feature_ttl f)) ∧
  (c.activity u w = Option.none → cfg.dbCount u (w / 3600) = Option.none →
    dget wa.1 f = some (Val.int 1) ∧
    wa.2.activity u w = some (1, cfg.registry.get_feature_ttl f))

theorem windowClaim_of (cfg : Config) (u : String) (c : Cache) (wa : Dict × Cache)
    (f : String) (w : Nat)
    (hd : dget wa.1 f = some (Val.int (windowValue cfg u w c)))
    (hc : wa.2.activity u w
      = some (windowValue cfg u w c, cfg.registry.get_feature_ttl f)) :
    windowClaim cfg u c wa f w := by
  refine ⟨?_, ?_, ?_⟩
  · intro x t hx
    have hv : windowValue cfg u w c = x + 1 := by unfold windowValue; rw [hx]
    rw [hv] at hd hc; exact ⟨hd, hc⟩
  · intro n hmiss hdb
    have hv : windowValue cfg u w c = (n : Int) + 1 := by
      unfold windowValue get_activity_count_from_db; rw [hmiss, hdb]
    rw [hv] at hd hc; exact ⟨hd, hc⟩
  · intro hmiss hdb
    have hv : windowValue cfg u w c = 1 := by
      unfold windowValue get_activity_count_from_db; rw [hmiss, hdb]; rfl
    rw [hv] at hd hc; exact ⟨hd, hc⟩

/-- C8: for every user and each of the four windows (1h, 6h, 24h, 7d),
when the window's feature is active the emitted count is: cache hit →
cached + 1 with the entry refreshed under the feature's TTL; cache
miss → the feature store's count for `window_seconds // 3600` hours
plus 1, written under the TTL; database failure → 1 (historical count
taken as 0). -/
theorem C8_theorem (cfg : Config) (u et variant : String) (c : Cache) :
    (cfg.registry.should_compute_feature "activity_count_1h" variant = true →
      windowClaim cfg u c (compute_windowed_aggregations cfg u et variant c)
        "activity_count_1h" 3600) ∧
    (cfg.registry.should_compute_feature "activity_count_6h" variant = true →
      windowClaim cfg u c (compute_windowed_aggregations cfg u et variant c)
        "activity_count_6h" 21600) ∧
    (cfg.registry.should_compute_feature "activity_count_24h" variant = true →
      windowClaim cfg u c (compute_windowed_aggregations cfg u et variant c)
        "activity_count_24h" 86400) ∧
    (cfg.registry.should_compute_feature "activity_count_7d" variant = true →
      windowClaim cfg u c (compute_windowed_aggregations cfg u et variant c)
        "activity_count_7d" 604800) := by
  refine ⟨fun hg => ?_, fun hg => ?_, fun hg => ?_, fun hg => ?_⟩ <;>
    unfold compute_windowed_aggregations
  · apply windowClaim_of
    · rw [eventFreqStep_dget_ne _ _ _ _ _ _ (by decide),
          windowStep_dget_ne _ _ _ _ _ _ _ (by decide),
          windowStep_dget_ne _ _ _ _ _ _ _ (by decide),
          windowStep_dget_ne _ _ _ _ _ _ _ (by decide),
          windowStep_gated _ _ _ _ _ _ hg]
      simp only []
      rw [dget_dset_self]
    · rw [eventFreqStep_activity,
          windowStep_activity_ne _ _ _ _ _ _ _ _ (by decide),
          windowStep_activity_ne _ _ _ _ _ _ _ _ (by decide),
          windowStep_activity_ne _ _ _ _ _ _ _ _ (by decide),
          windowStep_gated _ _ _ _ _ _ hg]
      simp only []
      rw [setActivity_self]
  · have e1 : (windowStep cfg u variant "activity_count_1h" 3600 ([], c)).2.activity u 21600
        = c.activity u 21600 := windowStep_activity_ne _ _ _ _ _ _ _ _ (by decide)
    have v1 : windowValue cfg u 21600
          (windowStep cfg u variant "activity_count_1h" 3600 ([], c)).2
        = windowValue cfg u 21600 c := windowValue_congr _ _ _ _ _ e1
    apply windowClaim_of
    · rw [eventFreqStep_dget_ne _ _ _ _ _ _ (by decide),
          windowStep_dget_ne _ _ _ _ _ _ _ (by decide),
          windowStep_dget_ne _ _ _ _ _ _ _ (by decide),
          windowStep_gated _ _ _ _ _ _ hg]
      simp only []
      rw [dget_dset_self, v1]
    · rw [eventFreqStep_activity,
          windowStep_activity_ne _ _ _ _ _ _ _ _ (by decide),
          windowStep_activity_ne _ _ _ _ _ _ _ _ (by decide),
          windowStep_gated _ _ _ _ _ _ hg]
      simp only []
      rw [setActivity_self, v1]
  · have e1 : (windowStep cfg u variant "activity_count_1h" 3600 ([], c)).2.activity u 86400
        = c.activity u 86400 := windowStep_activity_ne _ _ _ _ _ _ _ _ (by decide)
    have e2 : (windowStep cfg u variant "activity_count_6h" 21600
          (windowStep cfg u variant "activity_count_1h" 3600 ([], c))).2.activity u 86400
        = c.activity u 86400 :=
      (windowStep_activity_ne _ _ _ _ _ _ _ _ (by decide)).trans e1
    have v2 : windowValue cfg u 86400
          (windowStep cfg u variant "activity_count_6h" 21600
            (windowStep cfg u variant "activity_count_1h" 3600 ([], c))).2
        = windowValue cfg u 86400 c := windowValue_congr _ _ _ _ _ e2
    apply windowClaim_of
    · rw [eventFreqStep_dget_ne _ _ _ _ _ _ (by decide),
          windowStep_dget_ne _ _ _ _ _ _ _ (by decide),
          windowStep_gated _ _ _ _ _ _ hg]
      simp only []
      rw [dget_dset_self, v2]
    · rw [eventFreqStep_activity,
          windowStep_activity_ne _ _ _ _ _ _ _ _ (by decide),
          windowStep_gated _ _ _ _ _ _ hg]
      simp only []
      rw [setActivity_self, v2]
  · have e1 : (windowStep cfg u variant "activity_count_1h" 3600 ([], c)).2.activity u 604800
        = c.activity u 604800 := windowStep_activity_ne _ _ _ _ _ _ _ _ (by decide)
    have e2 : (windowStep cfg u variant "activity_count_6h" 21600
          (windowStep cfg u variant "activity_count_1h" 3600 ([], c))).2.activity u 604800
        = c.activity u 604800 :=
      (windowStep_activity_ne _ _ _ _ _ _ _ _ (by decide)).trans e1
    have e3 : (windowStep cfg u variant "activity_count_24h" 86400
          (windowStep cfg u variant "activity_count_6h" 21600
            (windowStep cfg u variant "activity_count_1h" 3600 ([], c)))).2.activity u 604800
        = c.activity u 604800 :=
      (windowStep_activity_ne _ _ _ _ _ _ _ _ (by decide)).trans e2
    have v3 : windowValue cfg u 604800
          (windowStep cfg u variant "activity_count_24h" 86400
            (windowStep cfg u variant "activity_count_6h" 21600
              (windowStep cfg u variant "activity_count_1h" 3600 ([], c)))).2
        = windowValue cfg u 604800 c := windowValue_congr _ _ _ _ _ e3
    apply windowClaim_of
    · rw [eventFreqStep_dget_ne _ _ _ _ _ _ (by decide),
          windowStep_gated _ _ _ _ _ _ hg]
      simp only []
      rw [dget_dset_self, v3]
    · rw [eventFreqStep_activity,
          windowStep_gated _ _ _ _ _ _ hg]
      simp only []
      rw [setActivity_self, v3]

/-- Configuration whose database query returns 7 raw events. -/
def cfgDb7 : Config :=
  { registry := defaultRegistry, driftEnabled := false, thresholds := fun _ => Option.none,
    digest := fun _ => 0, sqrtFn := fun _ => 0, dbCount := fun _ _ => some 7 }

/-- Configuration whose database query always raises. -/
def cfgDbNone : Config :=
  { registry := defaultRegistry, driftEnabled := false, thresholds := fun _ => Option.none,
    digest := fun _ => 0, sqrtFn := fun _ => 0, dbCount := fun _ _ => Option.none }

/-- C8 witness: the theorem applied concretely — a hit on a cached
count of 5 yields 6; a miss with 7 rows in the store yields 8; a miss
with the database failing yields 1. -/
theorem C8_witness :
    dget (compute_windowed_aggregations baseConfig "u" "view" "A" cacheSkew).1
        "activity_count_1h" = some (Val.int 6) ∧
    dget (compute_windowed_aggregations cfgDb7 "u" "view" "A" emptyCache).1
        "activity_count_6h" = some (Val.int 8) ∧
    dget (compute_windowed_aggregations cfgDbNone "u" "view" "A" emptyCache).1
        "activity_count_24h" = some (Val.int 1) := by
  refine ⟨?_, ?_, ?_⟩
  · exact (((C8_theorem baseConfig "u" "view" "A" cacheSkew).1 rfl).1 5 300 (by decide)).1
  · exact (((C8_theorem cfgDb7 "u" "view" "A" emptyCache).2.1 rfl).2.1 7
      (by decide) (by decide)).1
  · exact (((C8_theorem cfgDbNone "u" "view" "A" emptyCache).2.2.1 rfl).2.2
      (by decide) (by decide)).1

/-! ## Claim C1: session indicator on an absent delta -/

theorem windowStep_lastEvent (cfg : Config) (u variant fname : String) (wsec : Nat)
    (dc : Dict × Cache) :
    (windowStep cfg u variant fname wsec dc).2.lastEvent = dc.2.lastEvent := by
  unfold windowStep Cache.setActivity
  split <;> rfl

theorem eventFreqStep_lastEvent (cfg : Config) (u et variant : String)
    (dc : Dict × Cache) :
    (eventFreqStep cfg u et variant dc).2.lastEvent = dc.2.lastEvent := by
  unfold eventFreqStep Cache.setEventFreq
  split <;> rfl

theorem cwa_lastEvent (cfg : Config) (u et variant : String) (c : Cache) :
    (compute_windowed_aggregations cfg u et variant c).2.lastEvent = c.lastEvent := by
  unfold compute_windowed_aggregations
  rw [eventFreqStep_lastEvent, windowStep_lastEvent, windowStep_lastEvent,
      windowStep_lastEvent, windowStep_lastEvent]

/-- When the user has no stored `last_event` key and the session gate
is on, the session indicator evaluates `None < 1800` and raises. -/
theorem sessionStep_typeError (cfg : Config) (variant : String) (d : Dict) (c : Cache)
    (u : String) (ts : Int)
    (hg : cfg.registry.should_compute_feature "is_active_session" variant = true)
    (hle : c.lastEvent u = Option.none) :
    sessionStep cfg variant (lastEventStep d c u ts).1 = Except.error "TypeError" := by
  unfold lastEventStep
  rw [hle]
  simp only []
  unfold sessionStep
  rw [hg]
  simp only [if_true]
  unfold sessionIndicator
  rw [dget_dset_self]

/-- C1 (amended): for every event whose user has no stored last-event
time, if `is_active_session` is active for the user's variant,
`compute_features` raises a `TypeError` — `features.get(...)` returns
the stored `None` (the key is present), and `None < 1800` is a type
error in Python 3 — so the first-ever event for a user is a
computation failure, not a feature record with
`is_active_session = true`. -/
theorem C1_theorem (cfg : Config) (e : Event) (now : Int) (c : Cache)
    (hle : c.lastEvent (cfUser e) = Option.none)
    (hg : cfg.registry.should_compute_feature "is_active_session"
      (cfVariant cfg e) = true) :
    computeErr (compute_features cfg e now c) = some "TypeError" := by
  have hle2 : (cfWc cfg e c).2.lastEvent (cfUser e) = Option.none := by
    unfold cfWc; rw [cwa_lastEvent]; exact hle
  simp only [compute_features, cfLc]
  rw [sessionStep_typeError _ _ _ _ _ _ hg hle2]
  rfl

/-- C1 counterexample: the first-ever event for user `"u"` (empty
cache) does not produce a feature record with `is_active_session =
true`; `compute_features` fails with a `TypeError`. -/
theorem C1_counterexample :
    computeErr (compute_features baseConfig evU 1000 emptyCache) = some "TypeError" ∧
    computeRec (compute_features baseConfig evU 1000 emptyCache) = Option.none :=
  ⟨rfl, rfl⟩

/-- C1 witness: the amended theorem applied to a first-ever event for
user `"w"` over the empty cache. -/
theorem C1_witness :
    computeErr (compute_features baseConfig evW 1000 emptyCache) = some "TypeError" :=
  C1_theorem baseConfig evW 1000 emptyCache rfl rfl

/-! ## Key-tracking lemmas for the feature dict -/

theorem mem_dkeys_gatedSet (d : Dict) (p : Prop) [Decidable p] (k k' : String) (v : Val)
    (h : k ∈ dkeys (if p then dset d k' v else d)) :
    k ∈ dkeys d ∨ (k = k' ∧ p) := by
  split at h
  · rcases mem_dkeys_dset _ _ _ _ h with h2 | rfl
    · exact Or.inl h2
    · exact Or.inr ⟨rfl, by assumption⟩
  · exact Or.inl h

theorem dget_gatedSet_ne (d : Dict) (p : Prop) [Decidable p] (k k' : String) (v : Val)
    (h : k ≠ k') :
    dget (if p then dset d k' v else d) k = dget d k := by
  split
  · exact dget_dset_ne d k k' v h
  · rfl

theorem dget_dmerge_not_mem (d sub : Dict) (k : String) (h : k ∉ dkeys sub) :
    dget (dmerge d sub) k = dget d k := by
  apply dget_dmerge_notin
  intro p hp hk
  exact h (hk ▸ List.mem_map_of_mem Prod.fst hp)

theorem temporal_dkeys (cfg : Config) (e : Event) (variant : String) (now : Int)
    (k : String) (h : k ∈ dkeys (compute_temporal_features cfg e variant now)) :
    (k = "hour_of_day" ∨ k = "day_of_week" ∨ k = "is_weekend") ∧
    cfg.registry.should_compute_feature k variant = true := by
  unfold compute_temporal_features at h
  rcases mem_dkeys_gatedSet _ _ _ _ _ h with h | ⟨rfl, hg⟩
  · rcases mem_dkeys_gatedSet _ _ _ _ _ h with h | ⟨rfl, hg⟩
    · rcases mem_dkeys_gatedSet _ _ _ _ _ h with h | ⟨rfl, hg⟩
      · exact absurd h (by simp [dkeys])
      · exact ⟨Or.inl rfl, hg⟩
    · exact ⟨Or.inr (Or.inl rfl), hg⟩
  · exact ⟨Or.inr (Or.inr rfl), hg⟩

theorem mem_dkeys_foldl_dset (pre : String) (val : String → Val) (l : List String)
    (d : Dict) (k : String)
    (h : k ∈ dkeys (List.foldl (fun acc x => dset acc (pre ++ x) (val x)) d l)) :
    k ∈ dkeys d ∨ ∃ x ∈ l, k = pre ++ x := by
  induction l generalizing d with
  | nil => exact Or.inl h
  | cons x rest ih =>
    rcases ih (dset d (pre ++ x) (val x)) h with h2 | ⟨y, hy, rfl⟩
    · rcases mem_dkeys_dset _ _ _ _ h2 with h3 | rfl
      · exact Or.inl h3
      · exact Or.inr ⟨x, List.mem_cons_self x rest, rfl⟩
    · exact Or.inr ⟨y, List.mem_cons_of_mem x hy, rfl⟩

theorem dget_foldl_dset_ne (pre : String) (val : String → Val) (l : List String)
    (d : Dict) (k : String) (h : ∀ x ∈ l, k ≠ pre ++ x) :
    dget (List.foldl (fun acc x => dset acc (pre ++ x) (val x)) d l) k = dget d k := by
  induction l generalizing d with
  | nil => rfl
  | cons x rest ih =>
    have hx : k ≠ pre ++ x := h x (List.mem_cons_self x rest)
    have hr : ∀ y ∈ rest, k ≠ pre ++ y := fun y hy => h y (List.mem_cons_of_mem x hy)
    show dget (List.foldl _ (dset d (pre ++ x) (val x)) rest) k = dget d k
    rw [ih (dset d (pre ++ x) (val x)) hr, dget_dset_ne d k (pre ++ x) (val x) hx]

theorem categorical_dkeys (cfg : Config) (e : Event) (variant : String)
    (k : String) (h : k ∈ dkeys (compute_categorical_features cfg e variant)) :
    (cfg.registry.should_compute_feature "event_type_encoded" variant = true ∧
      ∃ et ∈ eventTypeList, k = "event_type_" ++ et) ∨
    (cfg.registry.should_compute_feature "device_type_encoded" variant = true ∧
      ∃ dt ∈ deviceTypeList, k = "device_type_" ++ dt) := by
  simp only [compute_categorical_features] at h
  split at h
  case isTrue hg2 =>
    rcases mem_dkeys_foldl_dset _ _ _ _ _ h with h2 | ⟨x, hx, rfl⟩
    · split at h2
      case isTrue hg1 =>
        rcases mem_dkeys_foldl_dset _ _ _ _ _ h2 with h3 | ⟨x, hx, rfl⟩
        · exact absurd h3 (by simp [dkeys])
        · exact Or.inl ⟨hg1, x, hx, rfl⟩
      case isFalse => exact absurd h2 (by simp [dkeys])
    · exact Or.inr ⟨hg2, x, hx, rfl⟩
  case isFalse =>
    split at h
    case isTrue hg1 =>
      rcases mem_dkeys_foldl_dset _ _ _ _ _ h with h3 | ⟨x, hx, rfl⟩
      · exact absurd h3 (by simp [dkeys])
      · exact Or.inl ⟨hg1, x, hx, rfl⟩
    case isFalse => exact absurd h (by simp [dkeys])

theorem dget_none_of_not_mem (d : Dict) (k : String) (h : k ∉ dkeys d) :
    dget d k = Option.none := by
  unfold dget
  rw [findKey_none_of_not_any]
  · rfl
  · rw [Bool.eq_false_iff]
    intro hany
    rw [List.any_eq_true] at hany
    obtain ⟨p, hp, hpk⟩ := hany
    rw [beq_iff_eq] at hpk
    exact h (hpk ▸ List.mem_map_of_mem Prod.fst hp)

theorem windowStep_dkeys (cfg : Config) (u variant fname : String) (wsec : Nat)
    (dc : Dict × Cache) (k : String)
    (h : k ∈ dkeys (windowStep cfg u variant fname wsec dc).1) :
    k ∈ dkeys dc.1 ∨
    (k = fname ∧ cfg.registry.should_compute_feature fname variant = true) := by
  unfold windowStep at h
  split at h
  · rcases mem_dkeys_dset _ _ _ _ h with h2 | rfl
    · exact Or.inl h2
    · exact Or.inr ⟨rfl, by assumption⟩
  · exact Or.inl h

theorem eventFreqStep_dkeys (cfg : Config) (u et variant : String)
    (dc : Dict × Cache) (k : String)
    (h : k ∈ dkeys (eventFreqStep cfg u et variant dc).1) :
    k ∈ dkeys dc.1 ∨
    (k = "event_type_frequency_24h" ∧
      cfg.registry.should_compute_feature "event_type_frequency_24h" variant = true) := by
  unfold eventFreqStep at h
  split at h
  · rcases mem_dkeys_dset _ _ _ _ h with h2 | rfl
    · exact Or.inl h2
    · exact Or.inr ⟨rfl, by assumption⟩
  · exact Or.inl h

/-- The five names `compute_windowed_aggregations` may emit. -/
def windowNames : List String :=
  ["activity_count_1h", "activity_count_6h", "activity_count_24h",
   "activity_count_7d", "event_type_frequency_24h"]

theorem cwa_dkeys (cfg : Config) (u et variant : String) (c : Cache) (k : String)
    (h : k ∈ dkeys (compute_windowed_aggregations cfg u et variant c).1) :
    k ∈ windowNames ∧ cfg.registry.should_compute_feature k variant = true := by
  unfold compute_windowed_aggregations at h
  rcases eventFreqStep_dkeys _ _ _ _ _ _ h with h | ⟨rfl, hg⟩
  · rcases windowStep_dkeys _ _ _ _ _ _ _ h with h | ⟨rfl, hg⟩
    · rcases windowStep_dkeys _ _ _ _ _ _ _ h with h | ⟨rfl, hg⟩
      · rcases windowStep_dkeys _ _ _ _ _ _ _ h with h | ⟨rfl, hg⟩
        · rcases windowStep_dkeys _ _ _ _ _ _ _ h with h | ⟨rfl, hg⟩
          · exact absurd h (by simp [dkeys])
          · exact ⟨by decide, hg⟩
        · exact ⟨by decide, hg⟩
      · exact ⟨by decide, hg⟩
    · exact ⟨by decide, hg⟩
  · exact ⟨by decide, hg⟩

theorem ratio_dkeys (cfg : Config) (u : String) (features : Dict) (variant : String)
    (c : Cache) (k : String)
    (h : k ∈ dkeys (compute_ratio_features cfg u features variant c)) :
    (k = "activity_trend" ∧
      cfg.registry.should_compute_feature "activity_trend" variant = true) ∨
    (k = "purchase_rate_24h" ∧
      cfg.registry.should_compute_feature "purchase_rate_24h" variant = true) := by
  simp only [compute_ratio_features] at h
  rcases mem_dkeys_gatedSet _ _ _ _ _ h with h | ⟨rfl, hg⟩
  · rcases mem_dkeys_gatedSet _ _ _ _ _ h with h | ⟨rfl, hg⟩
    · exact absurd h (by simp [dkeys])
    · exact Or.inl ⟨rfl, hg⟩
  · exact Or.inr ⟨rfl, hg⟩

theorem sessionStep_ok_dget_ne (cfg : Config) (variant : String) (d d' : Dict)
    (hss : sessionStep cfg variant d = Except.ok d') (k : String)
    (h : k ≠ "is_active_session") : dget d' k = dget d k := by
  unfold sessionStep at hss
  split at hss
  · cases hsi : sessionIndicator d with
    | ok b =>
      rw [hsi] at hss
      simp only [Except.ok.injEq] at hss
      rw [← hss, dget_dset_ne d k _ _ h]
    | error m => rw [hsi] at hss; exact absurd hss (by simp)
  · simp only [Except.ok.injEq] at hss
    rw [← hss]

theorem sessionStep_ok_dkeys (cfg : Config) (variant : String) (d d' : Dict)
    (hss : sessionStep cfg variant d = Except.ok d') (k : String)
    (h : k ∈ dkeys d') :
    k ∈ dkeys d ∨ (k = "is_active_session" ∧
      cfg.registry.should_compute_feature "is_active_session" variant = true) := by
  unfold sessionStep at hss
  split at hss
  · cases hsi : sessionIndicator d with
    | ok b =>
      rw [hsi] at hss
      simp only [Except.ok.injEq] at hss
      rw [← hss] at h
      rcases mem_dkeys_dset _ _ _ _ h with h2 | rfl
      · exact Or.inl h2
      · exact Or.inr ⟨rfl, by assumption⟩
    | error m => rw [hsi] at hss; exact absurd hss (by simp)
  · simp only [Except.ok.injEq] at hss
    rw [← hss] at h
    exact Or.inl h

theorem newUserStep_dget_ne (d : Dict) (c : Cache) (u : String) (ts : Int)
    (k : String) (h : k ≠ "is_new_user") :
    dget (newUserStep d c u ts).1 k = dget d k := by
  unfold newUserStep
  split
  · exact dget_dset_ne d k _ _ h
  · simp only []
    exact dget_dset_ne d k _ _ h

theorem newUserStep_dkeys (d : Dict) (c : Cache) (u : String) (ts : Int)
    (k : String) (h : k ∈ dkeys (newUserStep d c u ts).1) :
    k ∈ dkeys d ∨ k = "is_new_user" := by
  unfold newUserStep at h
  split at h
  · exact mem_dkeys_dset _ _ _ _ h
  · exact mem_dkeys_dset _ _ _ _ h

theorem dget_dmerge_of_get (d sub : Dict) (k : String) (v : Val)
    (huniq : (dkeys sub).Nodup) (h : dget sub k = some v) :
    dget (dmerge d sub) k = some v := by
  induction sub generalizing d with
  | nil => simp [dget, List.find?] at h
  | cons p rest ih =>
    unfold dkeys at huniq
    rw [List.map_cons, List.nodup_cons] at huniq
    by_cases hp : p.1 = k
    · have hv : p.2 = v := by
        unfold dget at h
        rw [List.find?_cons_of_pos _ (by simp [hp])] at h
        simpa using h
      show dget (dmerge (dset d p.1 p.2) rest) k = some v
      rw [dget_dmerge_not_mem _ _ _ (by rw [← hp]; exact fun hm => huniq.1 hm),
          hp, hv, dget_dset_self]
    · have hrest : dget rest k = some v := by
        unfold dget at h ⊢
        rwa [List.find?_cons_of_neg _ (by simp [hp])] at h
      exact ih (dset d p.1 p.2) huniq.2 hrest

/-! ## Claim C4: seconds_since_last_event sign -/

theorem postSession_dget_ne (cfg : Config) (e : Event) (now : Int)
    (u variant : String) (ts : Int) (d5 : Dict) (c1 : Cache) (k : String)
    (h1 : k ≠ "is_new_user") (h2 : k ≠ "activity_trend")
    (h3 : k ≠ "purchase_rate_24h") (h4 : k ≠ "engagement_score")
    (h5 : k ≠ "engagement_score_v2") (h6 : k ≠ "raw_event") :
    dget (postSession cfg e now u variant ts d5 c1).1 k = dget d5 k := by
  have hnu : dget (psNu cfg u variant ts d5 c1).1 k = dget d5 k := by
    unfold psNu
    split
    · exact newUserStep_dget_ne _ _ _ _ _ h1
    · rfl
  have hd6 : dget (psD6 cfg u variant ts d5 c1) k = dget d5 k := by
    unfold psD6
    rw [dget_dmerge_not_mem _ _ _ (by
          intro hm
          rcases ratio_dkeys _ _ _ _ _ _ hm with ⟨h', _⟩ | ⟨h', _⟩
          · exact h2 h'
          · exact h3 h'), hnu]
  simp only [postSession]
  split
  · rw [dget_dset_ne _ _ _ _ h6, dget_dset_ne _ _ _ _ h5, hd6]
  · rw [dget_dset_ne _ _ _ _ h6, dget_dset_ne _ _ _ _ h4, hd6]

/-- C4 (amended): when the user has a stored last-event time `t`, the
emitted `seconds_since_last_event` is exactly the signed difference
`timestamp − t`; it is non-negative whenever the event's timestamp is
at or after `t`, but the code does not clamp it, so it is negative
whenever timestamps regress (out-of-order delivery, or the `utcnow()`
fallback racing a stored future timestamp). -/
theorem C4_theorem (cfg : Config) (e : Event) (now t : Int) (c : Cache) (rec : Dict)
    (hle : c.lastEvent (cfUser e) = some t)
    (hok : computeRec (compute_features cfg e now c) = some rec) :
    dget rec "seconds_since_last_event" = some (Val.int (e.ingested_at.getD now - t)) ∧
    (t ≤ e.ingested_at.getD now → 0 ≤ e.ingested_at.getD now - t) := by
  refine ⟨?_, fun hts => by omega⟩
  simp only [compute_features, computeRec] at hok
  have hle2 : (cfWc cfg e c).2.lastEvent (cfUser e) = some t := by
    unfold cfWc; rw [cwa_lastEvent]; exact hle
  cases hss : sessionStep cfg (cfVariant cfg e) (cfLc cfg e now c).1 with
  | error m => rw [hss] at hok; exact absurd hok (by simp)
  | ok d5 =>
    rw [hss] at hok
    simp only [Option.some_inj] at hok
    rw [← hok]
    rw [postSession_dget_ne _ _ _ _ _ _ _ _ _
          (by decide) (by decide) (by decide) (by decide) (by decide) (by decide),
        sessionStep_ok_dget_ne _ _ _ _ hss _ (by decide)]
    unfold cfLc lastEventStep
    rw [hle2]
    simp only []
    rw [dget_dset_self]

/-- C4 counterexample: user `"u"` has stored last-event time 1500; an
event with timestamp 1000 (out of order) yields a feature record
carrying `seconds_since_last_event = -500 < 0`. -/
theorem C4_counterexample :
    (computeRec (compute_features baseConfig evU 1000 cacheLate)).bind
        (fun d => dget d "seconds_since_last_event") = some (Val.int (-500)) ∧
    (-500 : Int) < 0 :=
  ⟨rfl, by decide⟩

/-- The record computed for `evU` over `cacheU` (last event at 900). -/
def recC4 : Dict := (computeRec (compute_features baseConfig evU 1000 cacheU)).getD []

/-- C4 witness: the amended theorem applied with stored last-event 900
and event timestamp 1000: the delta is the signed difference 100 ≥ 0. -/
theorem C4_witness :
    dget recC4 "seconds_since_last_event" = some (Val.int 100) ∧ (0 : Int) ≤ 100 := by
  have h := C4_theorem baseConfig evU 1000 900 cacheU recC4 rfl rfl
  exact ⟨by rw [h.1]; rfl, by decide⟩

/-! ## Claims C2 and C3: batch flush behaviour -/

theorem computePhase_dlq (cfg : Config) (events : List Event) (now : Int)
    (st : SysState) : (computePhase cfg events now st).2.dlq = st.dlq := by
  induction events generalizing st with
  | nil => rfl
  | cons e rest ih =>
    unfold computePhase
    cases compute_features cfg e now st.cache with
    | ok dc => simp only []; rw [ih]
    | error ec => simp only []; rw [ih]

theorem storePhase_dlq (sf : Nat → Bool) (records : List Dict) (i : Nat)
    (st : SysState) : (storePhase sf records i st).dlq = st.dlq := by
  induction records generalizing i st with
  | nil => rfl
  | cons d rest ih =>
    unfold storePhase
    cases store_features (sf i) d st.db with
    | ok db' => simp only []; rw [ih]
    | error m => simp only []; rw [ih]

/-- C2 (amended): the batch path never writes to the dead-letter
topic — per-event compute failures in `process_batch` only increment
`events_failed_total` and drop the event.  Dead-letter records
`{original_event, error, timestamp}`, carrying the unmodified input
event, are emitted only by the single-event `process_event` path (and
only when the DLQ send itself succeeds). -/
theorem C2_theorem :
    (∀ (cfg : Config) (sf : Nat → Bool) (events : List Event) (now : Int)
        (st : SysState), (process_batch cfg sf events now st).dlq = st.dlq) ∧
    (∀ (cfg : Config) (storeFail : Bool) (e : Event) (now : Int) (st : SysState)
        (msg : String) (c1 : Cache),
      compute_features cfg e now st.cache = Except.error (msg, c1) →
      (process_event cfg storeFail false e now st).dlq
        = st.dlq ++ [{ original_event := e, error := msg, timestamp := now }]) := by
  constructor
  · intro cfg sf events now st
    unfold process_batch
    rw [storePhase_dlq, computePhase_dlq]
  · intro cfg storeFail e now st msg c1 hcomp
    unfold process_event
    rw [hcomp]
    rfl

/-- C2 counterexample: a batch flush containing one event whose
feature computation fails (first-ever event of user `"u"`, raising
`TypeError`) emits nothing to the dead-letter sink; it only counts the
failure. -/
theorem C2_counterexample :
    (process_batch baseConfig (fun _ => false) [evU] 1000 (initState emptyCache)).dlq
        = [] ∧
    (process_batch baseConfig (fun _ => false) [evU] 1000
        (initState emptyCache)).failed = 1 :=
  ⟨rfl, rfl⟩

/-- The cache state carried by the `TypeError` raised while computing
`evU` over the empty cache. -/
def c1W : Cache :=
  match compute_features baseConfig evU 1000 emptyCache with
  | Except.error ec => ec.2
  | Except.ok dc => dc.2

/-- C2 witness: the amended theorem applied concretely — a batch flush
leaves the DLQ untouched, while `process_event` on the same failing
event appends `{original_event, error, timestamp}` verbatim. -/
theorem C2_witness :
    (process_batch baseConfig (fun _ => false) [evW] 1000 (initState emptyCache)).dlq
        = [] ∧
    (process_event baseConfig false false evU 1000 (initState emptyCache)).dlq
        = [{ original_event := evU, error := "TypeError", timestamp := 1000 }] := by
  refine ⟨C2_theorem.1 baseConfig (fun _ => false) [evW] 1000 (initState emptyCache), ?_⟩
  have h := C2_theorem.2 baseConfig false evU 1000 (initState emptyCache) "TypeError" c1W rfl
  rw [h]
  rfl

/-- The rows the store ends up with after a batch of records, given
which store calls fail: each surviving record contributes its
`store_rows` block, in order; a failing record contributes nothing. -/
def successRows (sf : Nat → Bool) : List Dict → Nat → List Row
  | [], _ => []
  | d :: rest, i => (if sf i then [] else store_rows d) ++ successRows sf rest (i + 1)

theorem storePhase_committed (sf : Nat → Bool) (records : List Dict) (i : Nat)
    (st : SysState) :
    (storePhase sf records i st).db.committed
      = st.db.committed ++ successRows sf records i := by
  induction records generalizing i st with
  | nil => simp [storePhase, successRows]
  | cons d rest ih =>
    by_cases hsf : sf i = true
    · have hsfr : store_features (sf i) d st.db = Except.error "store failure" := by
        unfold store_features; rw [hsf]; simp
      unfold storePhase
      rw [hsfr]
      simp only []
      rw [ih]
      simp [successRows, hsf]
    · rw [Bool.not_eq_true] at hsf
      have hsfr : store_features (sf i) d st.db
          = Except.ok { committed := st.db.committed ++ store_rows d } := by
        unfold store_features; rw [hsf]; simp
      unfold storePhase
      rw [hsfr]
      simp only []
      rw [ih]
      simp only [successRows]
      rw [if_neg (by simp [hsf])]
      simp [List.append_assoc]

/-- C3 (amended): persistence is per-record, not per-batch — each
feature record is stored in its own transaction (one bulk statement
and commit per record), so after a flush the store holds exactly the
rows of those records whose individual store call succeeded, in order;
a store failure removes only that record's rows while other records of
the same batch stay committed.  There is no batch-level atomicity. -/
theorem C3_theorem (cfg : Config) (sf : Nat → Bool) (events : List Event)
    (now : Int) (st : SysState) :
    (process_batch cfg sf events now st).db.committed
      = st.db.committed
        ++ successRows sf (computePhase cfg events now st).1 0 ∧
    (process_batch cfg sf events now st).db.committed
      = (computePhase cfg events now st).2.db.committed
        ++ successRows sf (computePhase cfg events now st).1 0 := by
  have hc : (computePhase cfg events now st).2.db = st.db := by
    induction events generalizing st with
    | nil => rfl
    | cons e rest ih =>
      unfold computePhase
      cases compute_features cfg e now st.cache with
      | ok dc => simp only []; rw [ih]
      | error ec => simp only []; rw [ih]
  unfold process_batch
  rw [storePhase_committed, hc]
  exact ⟨rfl, rfl⟩

/-- C3 counterexample: both events of the batch compute successfully,
the store call for the second record fails, yet the first record's 23
rows stay committed — a partial commit of the batch, contradicting
"either every success of the batch is persisted or none". -/
theorem C3_counterexample :
    (process_batch baseConfig (fun i => i == 1) [evU, evW] 1000
        (initState cacheUW)).processed = 1 ∧
    (process_batch baseConfig (fun i => i == 1) [evU, evW] 1000
        (initState cacheUW)).failed = 1 ∧
    (process_batch baseConfig (fun i => i == 1) [evU, evW] 1000
        (initState cacheUW)).db.committed.length = 23 ∧
    ((process_batch baseConfig (fun i => i == 1) [evU, evW] 1000
        (initState cacheUW)).db.committed.all
      fun r => r.user_id == Val.str "u") = true :=
  ⟨rfl, rfl, rfl, rfl⟩

/-! ## Claim C5: engagement score and activity trend ranges -/

/-- All cached windowed counters are non-negative (they are written as
counts; Redis could in principle hold arbitrary integers). -/
def cacheNonneg (c : Cache) : Prop :=
  ∀ u w x t, c.activity u w = some (x, t) → 0 ≤ x

theorem engagement_bounds (cfg : Config) (d : Dict) (variant : String) :
    0 ≤ compute_engagement_score cfg d variant ∧
    compute_engagement_score cfg d variant ≤ 100 := by
  simp only [compute_engagement_score]
  split_ifs <;> constructor <;> decide

theorem windowValue_nonneg (cfg : Config) (u : String) (w : Nat) (c : Cache)
    (h : cacheNonneg c) : 0 ≤ windowValue cfg u w c := by
  unfold windowValue
  cases hc : c.activity u w with
  | some p =>
    obtain ⟨x, t⟩ := p
    have := h u w x t hc
    simp only []
    omega
  | none =>
    simp only []
    unfold get_activity_count_from_db
    cases cfg.dbCount u (w / 3600) with
    | some n => simp only []; omega
    | none => simp only []; omega

theorem lastEventStep_dget_ne (d : Dict) (c : Cache) (u : String) (ts : Int)
    (k : String) (h : k ≠ "seconds_since_last_event") :
    dget (lastEventStep d c u ts).1 k = dget d k := by
  unfold lastEventStep
  cases c.lastEvent u <;> simp only [] <;> exact dget_dset_ne _ _ _ _ h

/-- The identity keys the seed dict defines. -/
theorem seed_dkeys (cfg : Config) (e : Event) (now : Int) (variant : String) :
    dkeys (seedDict cfg e now variant)
      = ["user_id", "event_type", "timestamp", "computed_at",
         "feature_version", "ab_variant"] := by
  simp [seedDict, dkeys]

theorem cfD3_dget_none (cfg : Config) (e : Event) (now : Int) (c0 : Cache) (k : String)
    (h1 : k ∉ ["user_id", "event_type", "timestamp", "computed_at",
               "feature_version", "ab_variant"])
    (h2 : k ∉ ["hour_of_day", "day_of_week", "is_weekend"])
    (h3 : ∀ et ∈ eventTypeList, k ≠ "event_type_" ++ et)
    (h4 : ∀ dt ∈ deviceTypeList, k ≠ "device_type_" ++ dt)
    (h5 : k ∉ windowNames) :
    dget (cfD3 cfg e now c0) k = Option.none := by
  unfold cfD3 cfWc
  rw [dget_dmerge_not_mem _ _ _ (fun hm => h5 (cwa_dkeys _ _ _ _ _ _ hm).1),
      dget_dmerge_not_mem _ _ _ (by
        intro hm
        rcases categorical_dkeys _ _ _ _ hm with ⟨_, x, hx, h'⟩ | ⟨_, x, hx, h'⟩
        · exact h3 x hx h'
        · exact h4 x hx h'),
      dget_dmerge_not_mem _ _ _ (by
        intro hm
        rcases (temporal_dkeys _ _ _ _ _ hm).1 with h' | h' | h' <;>
          · rw [h'] at h2; simp at h2)]
  exact dget_none_of_not_mem _ _ (by rw [seed_dkeys]; exact h1)

theorem dset_single_ne (a k : String) (x v : Val) (h : a ≠ k) :
    dset [(a, x)] k v = [(a, x), (k, v)] := by
  unfold dset
  rw [show (List.any [(a, x)] fun p => p.1 == k) = false by simp [h]]
  rfl

theorem cwa_dget_ac1h (cfg : Config) (u et variant : String) (c : Cache)
    (hg : cfg.registry.should_compute_feature "activity_count_1h" variant = true) :
    dget (compute_windowed_aggregations cfg u et variant c).1 "activity_count_1h"
      = some (Val.int (windowValue cfg u 3600 c)) := by
  unfold compute_windowed_aggregations
  rw [eventFreqStep_dget_ne _ _ _ _ _ _ (by decide),
      windowStep_dget_ne _ _ _ _ _ _ _ (by decide),
      windowStep_dget_ne _ _ _ _ _ _ _ (by decide),
      windowStep_dget_ne _ _ _ _ _ _ _ (by decide),
      windowStep_gated _ _ _ _ _ _ hg]
  simp only []
  rw [dget_dset_self]

theorem dkeys_dset (d : Dict) (k : String) (v : Val) :
    dkeys (dset d k v)
      = if List.any d (fun p => p.1 == k) then dkeys d else dkeys d ++ [k] := by
  unfold dset dkeys
  split
  · rw [List.map_map]
    congr 1
    funext p
    by_cases hp : p.1 = k
    · simp [hp]
    · simp [hp]
  · simp

theorem dset_nodup (d : Dict) (k : String) (v : Val) (h : (dkeys d).Nodup) :
    (dkeys (dset d k v)).Nodup := by
  rw [dkeys_dset]
  split
  · exact h
  case isFalse hany =>
    rw [List.nodup_append]
    refine ⟨h, List.nodup_singleton k, ?_⟩
    intro a ha hb
    rw [List.mem_singleton] at hb
    subst hb
    rw [Bool.not_eq_true] at hany
    unfold dkeys at ha
    rw [List.mem_map] at ha
    obtain ⟨p, hp, hpk⟩ := ha
    have := findKey_none_of_not_any d a hany
    rw [List.find?_eq_none] at this
    exact this p hp (by simp [hpk])

theorem windowStep_nodup (cfg : Config) (u variant fname : String) (wsec : Nat)
    (dc : Dict × Cache) (h : (dkeys dc.1).Nodup) :
    (dkeys (windowStep cfg u variant fname wsec dc).1).Nodup := by
  unfold windowStep
  split
  · exact dset_nodup _ _ _ h
  · exact h

theorem eventFreqStep_nodup (cfg : Config) (u et variant : String)
    (dc : Dict × Cache) (h : (dkeys dc.1).Nodup) :
    (dkeys (eventFreqStep cfg u et variant dc).1).Nodup := by
  unfold eventFreqStep
  split
  · exact dset_nodup _ _ _ h
  · exact h

theorem cwa_nodup (cfg : Config) (u et variant : String) (c : Cache) :
    (dkeys (compute_windowed_aggregations cfg u et variant c).1).Nodup := by
  unfold compute_windowed_aggregations
  apply eventFreqStep_nodup
  apply windowStep_nodup
  apply windowStep_nodup
  apply windowStep_nodup
  apply windowStep_nodup
  simp [dkeys]

theorem cfD3_dget_ac1h (cfg : Config) (e : Event) (now : Int) (c0 : Cache) :
    dget (cfD3 cfg e now c0) "activity_count_1h"
      = if cfg.registry.should_compute_feature "activity_count_1h"
            (cfVariant cfg e) = true
        then some (Val.int (windowValue cfg (cfUser e) 3600 c0))
        else Option.none := by
  unfold cfD3 cfWc
  split
  case isTrue hg =>
    exact dget_dmerge_of_get _ _ _ _ (cwa_nodup _ _ _ _ _)
      (cwa_dget_ac1h _ _ _ _ _ hg)
  case isFalse hg =>
    rw [dget_dmerge_not_mem _ _ _ (by
          intro hm
          exact hg (cwa_dkeys _ _ _ _ _ _ hm).2),
        dget_dmerge_not_mem _ _ _ (by
          intro hm
          rcases categorical_dkeys _ _ _ _ hm with ⟨_, x, hx, h'⟩ | ⟨_, x, hx, h'⟩
          · revert h'
            fin_cases hx <;> decide
          · revert h'
            fin_cases hx <;> decide),
        dget_dmerge_not_mem _ _ _ (by
          intro hm
          rcases (temporal_dkeys _ _ _ _ _ hm).1 with h' | h' | h' <;> simp at h')]
    exact dget_none_of_not_mem _ _ (by rw [seed_dkeys]; decide)

theorem postSession_dget_to_d6 (cfg : Config) (e : Event) (now : Int)
    (u variant : String) (ts : Int) (d5 : Dict) (c1 : Cache) (k : String)
    (h4 : k ≠ "engagement_score") (h5 : k ≠ "engagement_score_v2")
    (h6 : k ≠ "raw_event") :
    dget (postSession cfg e now u variant ts d5 c1).1 k
      = dget (psD6 cfg u variant ts d5 c1) k := by
  simp only [postSession]
  split
  · rw [dget_dset_ne _ _ _ _ h6, dget_dset_ne _ _ _ _ h5]
  · rw [dget_dset_ne _ _ _ _ h6, dget_dset_ne _ _ _ _ h4]

theorem postSession_engagement (cfg : Config) (e : Event) (now : Int)
    (u variant : String) (ts : Int) (d5 : Dict) (c1 : Cache) :
    ∃ s : Int,
      dget (postSession cfg e now u variant ts d5 c1).1
          (if variant == "B" then "engagement_score_v2" else "engagement_score")
        = some (Val.int s) ∧ 0 ≤ s ∧ s ≤ 100 := by
  refine ⟨compute_engagement_score cfg (psD6 cfg u variant ts d5 c1) variant, ?_,
    engagement_bounds cfg _ variant⟩
  simp only [postSession]
  by_cases hB : (variant == "B") = true
  · simp only [hB, if_true]
    rw [dget_dset_ne _ _ _ _ (by decide), dget_dset_self]
  · rw [Bool.not_eq_true] at hB
    simp only [hB, Bool.false_eq_true, if_false]
    rw [dget_dset_ne _ _ _ _ (by decide), dget_dset_self]

/-- The value stored under `activity_trend` by the ratio stage, when it
is present: `count_1h / max(count_24h, 1)` over the pre-ratio dict. -/
theorem psD6_trend (cfg : Config) (u variant : String) (ts : Int) (d5 : Dict)
    (c1 : Cache) (q : Rat)
    (hg : cfg.registry.should_compute_feature "activity_trend" variant = true)
    (hq : dget (psD6 cfg u variant ts d5 c1) "activity_trend" = some (Val.rat q)) :
    q = ((getIntD (psNu cfg u variant ts d5 c1).1 "activity_count_1h" 0 : Int) : Rat)
        / ((max (getIntD (psNu cfg u variant ts d5 c1).1 "activity_count_24h" 1) 1
            : Int) : Rat) := by
  unfold psD6 at hq
  simp only [compute_ratio_features] at hq
  rw [if_pos hg] at hq
  by_cases hg2 : cfg.registry.should_compute_feature "purchase_rate_24h" variant = true
  · rw [if_pos hg2] at hq
    rw [show (dset ([] : Dict) "activity_trend"
          (Val.rat (((getIntD (psNu cfg u variant ts d5 c1).1 "activity_count_1h" 0
            : Int) : Rat)
            / ((max (getIntD (psNu cfg u variant ts d5 c1).1 "activity_count_24h" 1) 1
              : Int) : Rat))))
        = [("activity_trend",
            Val.rat (((getIntD (psNu cfg u variant ts d5 c1).1 "activity_count_1h" 0
              : Int) : Rat)
              / ((max (getIntD (psNu cfg u variant ts d5 c1).1 "activity_count_24h" 1) 1
                : Int) : Rat)))] from rfl] at hq
    rw [dset_single_ne _ _ _ _ (by decide)] at hq
    have hmm : dmerge (psNu cfg u variant ts d5 c1).1
          [("activity_trend",
            Val.rat (((getIntD (psNu cfg u variant ts d5 c1).1 "activity_count_1h" 0
              : Int) : Rat)
              / ((max (getIntD (psNu cfg u variant ts d5 c1).1 "activity_count_24h" 1) 1
                : Int) : Rat))),
           ("purchase_rate_24h",
            Val.rat ((((psNu cfg u variant ts d5 c1).2.eventFreq u "purchase").getD 0
              : Rat)
              / ((max (((psNu cfg u variant ts d5 c1).2.eventFreq u "view").getD 0) 1
                : Int) : Rat)))]
        = dset (dset (psNu cfg u variant ts d5 c1).1 "activity_trend"
            (Val.rat (((getIntD (psNu cfg u variant ts d5 c1).1 "activity_count_1h" 0
              : Int) : Rat)
              / ((max (getIntD (psNu cfg u variant ts d5 c1).1 "activity_count_24h" 1) 1
                : Int) : Rat))))
            "purchase_rate_24h"
            (Val.rat ((((psNu cfg u variant ts d5 c1).2.eventFreq u "purchase").getD 0
              : Rat)
              / ((max (((psNu cfg u variant ts d5 c1).2.eventFreq u "view").getD 0) 1
                : Int) : Rat))) := rfl
    rw [hmm, dget_dset_ne _ _ _ _ (by decide), dget_dset_self] at hq
    simp only [Option.some_inj, Val.rat.injEq] at hq
    exact hq.symm
  · rw [if_neg hg2] at hq
    have hmm : dmerge (psNu cfg u variant ts d5 c1).1
          (dset ([] : Dict) "activity_trend"
            (Val.rat (((getIntD (psNu cfg u variant ts d5 c1).1 "activity_count_1h" 0
              : Int) : Rat)
              / ((max (getIntD (psNu cfg u variant ts d5 c1).1 "activity_count_24h" 1) 1
                : Int) : Rat))))
        = dset (psNu cfg u variant ts d5 c1).1 "activity_trend"
            (Val.rat (((getIntD (psNu cfg u variant ts d5 c1).1 "activity_count_1h" 0
              : Int) : Rat)
              / ((max (getIntD (psNu cfg u variant ts d5 c1).1 "activity_count_24h" 1) 1
                : Int) : Rat))) := rfl
    rw [hmm, dget_dset_self] at hq
    simp only [Option.some_inj, Val.rat.injEq] at hq
    exact hq.symm

/-- C5 (amended): for every successfully computed record, the emitted
engagement score (under `engagement_score_v2` for variant `'B'`, else
`engagement_score`) lies in [0, 100] regardless of the feature gates
and cached values; and under non-negative cached counters the
`activity_trend` value is non-negative — but it is **not** bounded by
1 (see the counterexample: cached 1h and 24h counters are independent
keys, so `count_1h` can exceed `max(count_24h, 1)`). -/
theorem C5_theorem (cfg : Config) (e : Event) (now : Int) (c : Cache) (rec : Dict)
    (hnn : cacheNonneg c)
    (hok : computeRec (compute_features cfg e now c) = some rec) :
    (∃ s : Int,
      dget rec (if cfVariant cfg e == "B" then "engagement_score_v2"
                else "engagement_score") = some (Val.int s) ∧ 0 ≤ s ∧ s ≤ 100) ∧
    (∀ q : Rat, dget rec "activity_trend" = some (Val.rat q) → 0 ≤ q) := by
  simp only [compute_features, computeRec] at hok
  cases hss : sessionStep cfg (cfVariant cfg e) (cfLc cfg e now c).1 with
  | error m => rw [hss] at hok; exact absurd hok (by simp)
  | ok d5 =>
    rw [hss] at hok
    simp only [Option.some_inj] at hok
    subst hok
    have hnu1 : ∀ k : String, k ≠ "is_new_user" →
        dget (psNu cfg (cfUser e) (cfVariant cfg e) (e.ingested_at.getD now) d5
          (cfLc cfg e now c).2).1 k = dget d5 k := by
      intro k hk
      unfold psNu
      split
      · exact newUserStep_dget_ne _ _ _ _ _ hk
      · rfl
    constructor
    · exact postSession_engagement cfg e now (cfUser e) (cfVariant cfg e)
        (e.ingested_at.getD now) d5 (cfLc cfg e now c).2
    · intro q hq
      rw [postSession_dget_to_d6 _ _ _ _ _ _ _ _ _
            (by decide) (by decide) (by decide)] at hq
      by_cases hg : cfg.registry.should_compute_feature "activity_trend"
          (cfVariant cfg e) = true
      · have hqv := psD6_trend _ _ _ _ _ _ _ hg hq
        rw [hqv]
        apply div_nonneg
        · have hchain : dget (psNu cfg (cfUser e) (cfVariant cfg e)
                (e.ingested_at.getD now) d5 (cfLc cfg e now c).2).1 "activity_count_1h"
              = dget (cfD3 cfg e now c) "activity_count_1h" := by
            rw [hnu1 _ (by decide), sessionStep_ok_dget_ne _ _ _ _ hss _ (by decide)]
            unfold cfLc
            exact lastEventStep_dget_ne _ _ _ _ _ (by decide)
          have hge : (0 : Int) ≤ getIntD (psNu cfg (cfUser e) (cfVariant cfg e)
              (e.ingested_at.getD now) d5 (cfLc cfg e now c).2).1
              "activity_count_1h" 0 := by
            unfold getIntD
            rw [hchain, cfD3_dget_ac1h]
            by_cases hg1 : cfg.registry.should_compute_feature "activity_count_1h"
                (cfVariant cfg e) = true
            · rw [if_pos hg1]
              exact windowValue_nonneg _ _ _ _ hnn
            · rw [if_neg hg1]
          exact_mod_cast hge
        · have hge : (0 : Int) ≤ max (getIntD (psNu cfg (cfUser e) (cfVariant cfg e)
              (e.ingested_at.getD now) d5 (cfLc cfg e now c).2).1
              "activity_count_24h" 1) 1 := le_trans (by norm_num) (le_max_right _ _)
          exact_mod_cast hge
      · exfalso
        have hnone : dget (psD6 cfg (cfUser e) (cfVariant cfg e)
            (e.ingested_at.getD now) d5 (cfLc cfg e now c).2) "activity_trend"
            = Option.none := by
          unfold psD6
          rw [dget_dmerge_not_mem _ _ _ (by
                intro hm
                rcases ratio_dkeys _ _ _ _ _ _ hm with ⟨_, hg'⟩ | ⟨h', _⟩
                · exact hg hg'
                · exact absurd h' (by decide)),
              hnu1 _ (by decide), sessionStep_ok_dget_ne _ _ _ _ hss _ (by decide)]
          unfold cfLc
          rw [lastEventStep_dget_ne _ _ _ _ _ (by decide)]
          exact cfD3_dget_none _ _ _ _ _ (by decide) (by decide) (by decide)
            (by decide) (by decide)
        rw [hnone] at hq
        exact absurd hq (by simp)

/-- C5 counterexample: with cached counters `activity:u:3600 = 5` and
`activity:u:86400 = 0` (independent keys, both refreshed on their own
TTLs), the emitted `activity_trend` is `6 / max(1, 1) = 6`, outside
[0, 1]. -/
theorem C5_counterexample :
    (computeRec (compute_features baseConfig evU 1000 cacheSkew)).bind
        (fun d => dget d "activity_trend") = some (Val.rat 6) ∧
    ¬ ((6 : Rat) ≤ 1) := by
  constructor
  · simp [compute_features, computeRec, baseConfig, defaultRegistry, evU, cacheSkew,
          emptyCache, Cache.setLastEvent, Cache.setActivity, Registry.get_user_variant,
          Registry.should_compute_feature, scfWalk, seedDict, compute_temporal_features,
          compute_categorical_features, compute_windowed_aggregations, windowStep,
          windowValue, eventFreqStep, Cache.setEventFreq, get_activity_count_from_db,
          lastEventStep, sessionStep, sessionIndicator, postSession, newUserStep,
          compute_ratio_features, compute_engagement_score, getIntD, getBoolD, getRatD,
          Registry.get_feature_ttl, dmerge, dset, dget, Cache.setDrift, recordInCache,
          recordFeatureValue, valAsRat, tsHour, tsWeekday, eventTypeList, deviceTypeList,
          cfUser, cfVariant, cfWc, cfD3, cfLc, psNu, psD6]
  · norm_num

/-- The record computed for `evU` over `cacheU`. -/
def recC5 : Dict := (computeRec (compute_features baseConfig evU 1000 cacheU)).getD []

/-- C5 witness: the amended theorem applied to a concrete successful
computation. -/
theorem C5_witness :
    (∃ s : Int,
      dget recC5 (if cfVariant baseConfig evU == "B" then "engagement_score_v2"
                  else "engagement_score") = some (Val.int s) ∧ 0 ≤ s ∧ s ≤ 100) ∧
    (∀ q : Rat, dget recC5 "activity_trend" = some (Val.rat q) → 0 ≤ q) :=
  C5_theorem baseConfig evU 1000 cacheU recC5
    (by intro u w x t h; simp [cacheU, emptyCache, Cache.setLastEvent] at h) rfl

/-! ## Claim C6: output keys versus registry gating -/

/-- The optional features gated under their own name. -/
def gatedNames : List String :=
  ["hour_of_day", "day_of_week", "is_weekend",
   "activity_count_1h", "activity_count_6h", "activity_count_24h",
   "activity_count_7d", "event_type_frequency_24h", "is_active_session",
   "is_new_user", "activity_trend", "purchase_rate_24h"]

/-- The keys a feature record can actually contain, per the code: the
identity fields; the ungated `seconds_since_last_event`; the
engagement-score key selected by the variant alone; features gated
under their own name; and the one-hot encodings gated under their
group names. -/
def allowedKey (cfg : Config) (variant k : String) : Prop :=
  k ∈ identityFields ∨
  k = "seconds_since_last_event" ∨
  (k = "engagement_score_v2" ∧ variant = "B") ∨
  (k = "engagement_score" ∧ variant ≠ "B") ∨
  (k ∈ gatedNames ∧ cfg.registry.should_compute_feature k variant = true) ∨
  (cfg.registry.should_compute_feature "event_type_encoded" variant = true ∧
    ∃ et ∈ eventTypeList, k = "event_type_" ++ et) ∨
  (cfg.registry.should_compute_feature "device_type_encoded" variant = true ∧
    ∃ dt ∈ deviceTypeList, k = "device_type_" ++ dt)

theorem windowNames_sub (k : String) (h : k ∈ windowNames) : k ∈ gatedNames := by
  simp only [windowNames, List.mem_cons, List.not_mem_nil, or_false] at h
  rcases h with rfl | rfl | rfl | rfl | rfl <;> decide

theorem lastEventStep_dkeys (d : Dict) (c : Cache) (u : String) (ts : Int)
    (k : String) (h : k ∈ dkeys (lastEventStep d c u ts).1) :
    k ∈ dkeys d ∨ k = "seconds_since_last_event" := by
  unfold lastEventStep at h
  simp only [] at h
  cases hle : c.lastEvent u with
  | some t0 => rw [hle] at h; exact mem_dkeys_dset _ _ _ _ h
  | none => rw [hle] at h; exact mem_dkeys_dset _ _ _ _ h

/-- C6 (amended): every key of a successfully computed record is an
identity field, or `seconds_since_last_event` (emitted with **no**
`registry.active` gate), or the engagement-score key chosen by the
variant alone (`engagement_score_v2` iff variant `'B'`, also ungated),
or a feature gated under its own name, or a one-hot key gated under
its group name (`event_type_encoded` / `device_type_encoded`). -/
theorem C6_theorem (cfg : Config) (e : Event) (now : Int) (c : Cache) (rec : Dict)
    (hok : computeRec (compute_features cfg e now c) = some rec) :
    ∀ k ∈ dkeys rec, allowedKey cfg (cfVariant cfg e) k := by
  intro k hk
  simp only [compute_features, computeRec] at hok
  cases hss : sessionStep cfg (cfVariant cfg e) (cfLc cfg e now c).1 with
  | error m => rw [hss] at hok; exact absurd hok (by simp)
  | ok d5 =>
    rw [hss] at hok
    simp only [Option.some_inj] at hok
    subst hok
    unfold allowedKey
    simp only [postSession] at hk
    rcases mem_dkeys_dset _ _ _ _ hk with hk | rfl
    · have hd6 : k ∈ dkeys (psD6 cfg (cfUser e) (cfVariant cfg e)
            (e.ingested_at.getD now) d5 (cfLc cfg e now c).2) ∨
          (k = "engagement_score_v2" ∧ cfVariant cfg e = "B") ∨
          (k = "engagement_score" ∧ cfVariant cfg e ≠ "B") := by
        by_cases hB : (cfVariant cfg e == "B") = true
        · rw [if_pos hB] at hk
          rcases mem_dkeys_dset _ _ _ _ hk with hk3 | rfl
          · exact Or.inl hk3
          · exact Or.inr (Or.inl ⟨rfl, by simpa using hB⟩)
        · rw [if_neg hB] at hk
          rcases mem_dkeys_dset _ _ _ _ hk with hk3 | rfl
          · exact Or.inl hk3
          · refine Or.inr (Or.inr ⟨rfl, ?_⟩)
            intro hBe
            exact hB (by simp [hBe])
      rcases hd6 with hd6 | ⟨rfl, hB⟩ | ⟨rfl, hB⟩
      · unfold psD6 at hd6
        rcases mem_dkeys_dmerge _ _ _ hd6 with hnu | hr
        · have hd5 : k ∈ dkeys d5 ∨
              (k = "is_new_user" ∧ cfg.registry.should_compute_feature "is_new_user"
                (cfVariant cfg e) = true) := by
            unfold psNu at hnu
            split at hnu
            · rcases newUserStep_dkeys _ _ _ _ _ hnu with h2 | rfl
              · exact Or.inl h2
              · exact Or.inr ⟨rfl, by assumption⟩
            · exact Or.inl hnu
          rcases hd5 with hd5 | ⟨rfl, hg⟩
          · rcases sessionStep_ok_dkeys _ _ _ _ hss _ hd5 with hlc | ⟨rfl, hg⟩
            · unfold cfLc at hlc
              rcases lastEventStep_dkeys _ _ _ _ _ hlc with hd3 | rfl
              · unfold cfD3 at hd3
                rcases mem_dkeys_dmerge _ _ _ hd3 with hd2 | hw
                · rcases mem_dkeys_dmerge _ _ _ hd2 with hd1 | hcat
                  · rcases mem_dkeys_dmerge _ _ _ hd1 with hseed | htemp
                    · refine Or.inl ?_
                      rw [seed_dkeys] at hseed
                      unfold identityFields
                      simp only [List.mem_cons, List.not_mem_nil, or_false]
                        at hseed ⊢
                      tauto
                    · obtain ⟨hn, hg⟩ := temporal_dkeys _ _ _ _ _ htemp
                      refine Or.inr (Or.inr (Or.inr (Or.inr (Or.inl ⟨?_, hg⟩))))
                      rcases hn with rfl | rfl | rfl <;> decide
                  · rcases categorical_dkeys _ _ _ _ hcat with ⟨hg, hx⟩ | ⟨hg, hx⟩
                    · exact Or.inr (Or.inr (Or.inr (Or.inr
                        (Or.inr (Or.inl ⟨hg, hx⟩)))))
                    · exact Or.inr (Or.inr (Or.inr (Or.inr
                        (Or.inr (Or.inr ⟨hg, hx⟩)))))
                · obtain ⟨hn, hg⟩ := cwa_dkeys _ _ _ _ _ _ hw
                  exact Or.inr (Or.inr (Or.inr (Or.inr
                    (Or.inl ⟨windowNames_sub k hn, hg⟩))))
              · exact Or.inr (Or.inl rfl)
            · exact Or.inr (Or.inr (Or.inr (Or.inr (Or.inl ⟨by decide, hg⟩))))
          · exact Or.inr (Or.inr (Or.inr (Or.inr (Or.inl ⟨by decide, hg⟩))))
        · rcases ratio_dkeys _ _ _ _ _ _ hr with ⟨rfl, hg⟩ | ⟨rfl, hg⟩
          · exact Or.inr (Or.inr (Or.inr (Or.inr (Or.inl ⟨by decide, hg⟩))))
          · exact Or.inr (Or.inr (Or.inr (Or.inr (Or.inl ⟨by decide, hg⟩))))
      · exact Or.inr (Or.inr (Or.inl ⟨rfl, hB⟩))
      · exact Or.inr (Or.inr (Or.inr (Or.inl ⟨rfl, hB⟩)))
    · exact Or.inl (by decide)

/-- Registry for the C6 counterexample: `seconds_since_last_event` is
declared at version `v2`, A/B testing routes all traffic to variant
`A` whose `features_version` is `v1` — so the feature is inactive for
every user. -/
def regC6 : Registry :=
  { version := "v1",
    features := [("session",
      [{ name := some "seconds_since_last_event", version := some "v2" }])],
    feature_ttls := fun _ => Option.none, default_ttl_seconds := 300,
    ab := { enabled := true,
            variants := [{ id := some "A", traffic_percentage := some 100,
                           features_version := some "v1" }] } }

/-- Configuration wrapping `regC6`. -/
def cfgC6 : Config :=
  { registry := regC6, driftEnabled := false, thresholds := fun _ => Option.none,
    digest := fun _ => 0, sqrtFn := fun _ => 0, dbCount := fun _ _ => some 0 }

/-- C6 counterexample: `seconds_since_last_event` is inactive for the
user's variant and is not an identity field, yet the computed record
carries it (value 100) — the code never gates it, so the output key
set is not contained in `{active names} ∪ {identity fields}`. -/
theorem C6_counterexample :
    cfgC6.registry.should_compute_feature "seconds_since_last_event"
        (cfVariant cfgC6 evU) = false ∧
    ("seconds_since_last_event" : String) ∉ identityFields ∧
    (computeRec (compute_features cfgC6 evU 1000 cacheU)).bind
        (fun d => dget d "seconds_since_last_event") = some (Val.int 100) :=
  ⟨by decide, by decide, rfl⟩

/-- The record computed for `evW` over `cacheUW` under `baseConfig`. -/
def recC6 : Dict := (computeRec (compute_features baseConfig evW 1000 cacheUW)).getD []

/-- C6 witness: the amended theorem applied to a concrete record and
key. -/
theorem C6_witness : allowedKey baseConfig (cfVariant baseConfig evW) "hour_of_day" :=
  C6_theorem baseConfig evW 1000 cacheUW recC6 rfl "hour_of_day" (by decide)
